import Mathlib

/-!
Verification of the clinic cancellation chatbot's offer orchestration core.

The development shallowly embeds the data model (app/infra/models.py), the
priority scorer and eligibility filter (app/core/prioritizer.py), the inbound
message parser (app/core/templates.py) and the offer orchestrator
(app/core/orchestrator.py).  Datetimes are embedded as integers counting UTC
seconds; Python floor division and timedelta.days are Int.fdiv.  Database rows
are lists of structures; each orchestrator method becomes a pure function from
a database state (plus the current time and a send-success oracle standing for
the notification channel) to a new database state and its return value.
-/

namespace Clinic

/-- Offer lifecycle states, from OfferState in app/infra/models.py. -/
inductive OfferState
  | PENDING
  | ACCEPTED
  | DECLINED
  | EXPIRED
  | CANCELED
  | FAILED
deriving DecidableEq, Repr

/-- Cancellation slot status, from CancellationStatus in app/infra/models.py. -/
inductive CancellationStatus
  | OPEN
  | FILLED
  | EXPIRED
  | ABORTED
deriving DecidableEq, Repr

/-- Row of patient_contact (app/infra/models.py), restricted to the fields the
orchestration core reads or writes. -/
structure PatientContact where
  id : Nat
  phone_e164 : String
  opt_out : Bool
  last_contacted_at : Option Int
deriving DecidableEq, Repr

/-- Row of provider_reference (app/infra/models.py). -/
structure ProviderReference where
  id : Nat
  provider_name : String
  provider_type : String
deriving DecidableEq, Repr

/-- Row of waitlist_entry (app/infra/models.py). -/
structure WaitlistEntry where
  id : Nat
  patient_id : Nat
  provider_preference : Option (List String)
  provider_type_preference : Option String
  current_appt_at : Option Int
  urgent_flag : Bool
  manual_boost : Int
  active : Bool
  joined_at : Int
  priority_score : Option Int
deriving DecidableEq, Repr

/-- Row of cancellation_event (app/infra/models.py), restricted to the fields
the orchestration core reads or writes. -/
structure CancellationEvent where
  id : Nat
  provider_id : Option Nat
  status : CancellationStatus
  filled_at : Option Int
  filled_by_patient_id : Option Nat
deriving DecidableEq, Repr

/-- Row of offer (app/infra/models.py). -/
structure Offer where
  id : Nat
  cancellation_id : Nat
  patient_id : Nat
  batch_number : Nat
  offer_sent_at : Int
  hold_expires_at : Int
  state : OfferState
  accepted_at : Option Int
  declined_at : Option Int
deriving DecidableEq, Repr

/-- Which SMS template an outbound message_log row came from.  Message wording
itself lives in app/core/templates.py and carries no state. -/
inductive MsgKind
  | initialOffer
  | winnerConfirm
  | tooLate
  | cancelNotice
deriving DecidableEq, Repr

/-- Outbound row of message_log (app/infra/models.py), reduced to the offer it
is attached to and the template that produced it. -/
structure MessageLog where
  offer_id : Option Nat
  kind : MsgKind
deriving DecidableEq, Repr

/-- The database state the orchestrator operates on.  nextOfferId models the
autoincrementing primary key of the offer table. -/
structure DB where
  patients : List PatientContact
  providers : List ProviderReference
  waitlist : List WaitlistEntry
  cancellations : List CancellationEvent
  offers : List Offer
  logs : List MessageLog
  nextOfferId : Nat
deriving DecidableEq, Repr

/-- Runtime settings read by OfferOrchestrator.__init__ (BATCH_SIZE and
HOLD_MINUTES in app/infra/settings.py; defaults 3 and 7). -/
structure Config where
  batch_size : Nat
  hold_minutes : Int
deriving Repr

/-- Python timedelta .days of the difference of two datetimes, for datetimes
measured in seconds: floor division by 86400. -/
def timedeltaDays (a b : Int) : Int := Int.fdiv (a - b) 86400

/-- calculate_priority_score from app/core/prioritizer.py. -/
def calculate_priority_score (entry : WaitlistEntry) (current_time : Int) : Int :=
  let score0 : Int := if entry.urgent_flag then 30 else 0
  let score1 := score0 + entry.manual_boost
  let score2 :=
    match entry.current_appt_at with
    | some appt =>
        let days_until := timedeltaDays appt current_time
        if days_until ≥ 180 then score1 + 20
        else if days_until ≥ 90 then score1 + 10
        else if days_until ≥ 30 then score1 + 5
        else score1
    | none => score1
  let days_on_waitlist := timedeltaDays current_time entry.joined_at
  score2 + min (Int.fdiv days_on_waitlist 30) 10

/-- Test that the second character list starts with the first. -/
def charsStartWith : List Char → List Char → Bool
  | [], _ => true
  | _ :: _, [] => false
  | k :: ks, c :: cs => k == c && charsStartWith ks cs

/-- Test that keyword occurs contiguously inside body. -/
def charsContain (body keyword : List Char) : Bool :=
  match body with
  | [] => keyword.isEmpty
  | _ :: rest => charsStartWith keyword body || charsContain rest keyword

/-- Python substring membership keyword in body, used by
parse_patient_response. -/
def pyContains (body : List Char) (keyword : String) : Bool :=
  charsContain body keyword.toList

/-- Python body.strip().upper() on the character list of an (ASCII) SMS
body. -/
def pyStripUpper (s : String) : List Char :=
  (((s.toList.dropWhile Char.isWhitespace).reverse.dropWhile
      Char.isWhitespace).reverse).map Char.toUpper

/-- parse_patient_response from app/core/templates.py: strips and uppercases
the body, then tests each keyword list with Python substring membership. -/
def parse_patient_response (message_body : String) : Option String :=
  let body := pyStripUpper message_body
  if (["YES", "Y", "YEAH", "YEP", "OK", "OKAY", "SURE", "ACCEPT"].any
      (fun k => pyContains body k)) then
    some "YES"
  else if (["NO", "N", "NOPE", "NAH", "DECLINE", "SKIP", "PASS"].any
      (fun k => pyContains body k)) then
    some "NO"
  else if (["STOP", "UNSUBSCRIBE", "CANCEL", "END", "QUIT", "REMOVE"].any
      (fun k => pyContains body k)) then
    some "STOP"
  else if (["HELP", "INFO", "?"].any (fun k => pyContains body k)) then
    some "HELP"
  else
    none

/-- Ordering used by get_eligible_patients_for_cancellation: priority_score
descending with nulls last, ties broken by joined_at ascending. -/
def wlOrder (a b : WaitlistEntry) : Bool :=
  match a.priority_score, b.priority_score with
  | some x, some y => if x = y then decide (a.joined_at ≤ b.joined_at) else decide (y < x)
  | some _, none => true
  | none, some _ => false
  | none, none => decide (a.joined_at ≤ b.joined_at)

/-- Propositional form of wlOrder, for List.insertionSort. -/
def wlRel (a b : WaitlistEntry) : Prop := wlOrder a b = true

instance : DecidableRel wlRel := fun a b => instDecidableEqBool (wlOrder a b) true

/-- The ORDER BY of get_eligible_patients_for_cancellation. -/
def orderByPriority (l : List WaitlistEntry) : List WaitlistEntry :=
  List.insertionSort wlRel l

/-- Offers ordered by offer_sent_at descending, as in the acceptance and
decline handlers. -/
def sentDescRel (a b : Offer) : Prop := b.offer_sent_at ≤ a.offer_sent_at

instance : DecidableRel sentDescRel := fun a b => Int.decLe b.offer_sent_at a.offer_sent_at

/-- The q1-to-q3 pipeline of get_eligible_patients_for_cancellation: active
entries of non-opted-out patients, minus the excluded patients (the SQL
filter is skipped when the exclusion list is empty, mirroring the Python
truthiness test). -/
def eligibleBase (db : DB) (exclude_patient_ids : List Nat) : List WaitlistEntry :=
  let q1 := db.waitlist.filter (fun w => w.active)
  let q2 := q1.filter
    (fun w => db.patients.any (fun p => p.id == w.patient_id && !p.opt_out))
  if exclude_patient_ids.isEmpty then q2
  else q2.filter (fun w => !(decide (w.patient_id ∈ exclude_patient_ids)))

/-- The provider preference filter (q4) of
get_eligible_patients_for_cancellation, applied only when the slot has a
provider on record. -/
def providerFilter (db : DB) (provider_id : Option Nat)
    (l : List WaitlistEntry) : List WaitlistEntry :=
  match provider_id with
  | none => l
  | some pid =>
    match db.providers.find? (fun pr => pr.id == pid) with
    | none => l
    | some provider =>
      l.filter (fun w =>
        (w.provider_type_preference == some "Any") ||
        (w.provider_type_preference == some provider.provider_type) ||
        (w.provider_type_preference == none) ||
        (match w.provider_preference with
         | some names => names.contains provider.provider_name
         | none => false))

/-- get_eligible_patients_for_cancellation from app/core/prioritizer.py: the
filter pipeline above, ordered by priority, truncated to the limit (a zero
limit, being falsy, applies no truncation). -/
def get_eligible_patients_for_cancellation (db : DB) (cancellation_id : Nat)
    (provider_id : Option Nat) (limit : Nat)
    (exclude_patient_ids : List Nat) : List WaitlistEntry :=
  let sorted := orderByPriority
    (providerFilter db provider_id (eligibleBase db exclude_patient_ids))
  if limit == 0 then sorted else sorted.take limit

/-- Offers belonging to one cancellation (the cancellation.offers
relationship). -/
def offersFor (db : DB) (cid : Nat) : List Offer :=
  db.offers.filter (fun o => o.cancellation_id == cid)

/-- Primary-key lookup of a cancellation event. -/
def findCancellation (db : DB) (cid : Nat) : Option CancellationEvent :=
  db.cancellations.find? (fun c => c.id == cid)

/-- Lookup of a patient by phone number (filter_by(phone_e164=...).first()). -/
def findPatientByPhone (db : DB) (phone : String) : Option PatientContact :=
  db.patients.find? (fun p => p.phone_e164 == phone)

/-- Python max(batch numbers, default=0) over a list of offers. -/
def maxBatchNumber (offers : List Offer) : Nat :=
  offers.foldr (fun o m => max o.batch_number m) 0

/-- The locked pending-offer lookup of handle_patient_acceptance and
handle_patient_decline: the patient's PENDING offers ordered by offer_sent_at
descending, first row. -/
def latestPendingOffer (db : DB) (pid : Nat) : Option Offer :=
  (List.insertionSort sentDescRel
    (db.offers.filter
      (fun o => decide (o.patient_id = pid ∧ o.state = OfferState.PENDING)))).head?

/-- Update of one offer row located by primary key. -/
def updateOffer (db : DB) (oid : Nat) (f : Offer → Offer) : DB :=
  { db with offers := db.offers.map (fun o => if o.id = oid then f o else o) }

/-- Assignment offer.state = st on one offer row. -/
def setOfferState (db : DB) (oid : Nat) (st : OfferState) : DB :=
  updateOffer db oid (fun o => { o with state := st })

/-- Outbound message_log insert (the _log_message helper). -/
def logMsg (db : DB) (oid : Option Nat) (k : MsgKind) : DB :=
  { db with logs := db.logs ++ [{ offer_id := oid, kind := k }] }

/-- Assignment patient.last_contacted_at = now after a successful send. -/
def touchPatient (db : DB) (pid : Nat) (now : Int) : DB :=
  { db with patients := db.patients.map (fun p =>
      if p.id = pid then { p with last_contacted_at := some now } else p) }

/-- The orchestrator's _mark_cancellation_expired. -/
def mark_cancellation_expired (db : DB) (cid : Nat) : DB :=
  match findCancellation db cid with
  | some _ =>
    { db with cancellations := db.cancellations.map (fun c =>
        if c.id = cid then { c with status := CancellationStatus.EXPIRED } else c) }
  | none => db

/-- The per-candidate loop of send_next_batch: create a PENDING offer, try the
send; on success log the outbound message, stamp the patient and count it; on
failure mark that one offer FAILED and continue with the rest of the batch. -/
def createOffers (cid : Nat) (batch : Nat) (now hold_expires : Int)
    (sendOk : Nat → Bool) : List WaitlistEntry → DB → DB × Nat
  | [], db => (db, 0)
  | entry :: rest, db =>
    let offer : Offer :=
      { id := db.nextOfferId, cancellation_id := cid, patient_id := entry.patient_id,
        batch_number := batch, offer_sent_at := now, hold_expires_at := hold_expires,
        state := OfferState.PENDING, accepted_at := none, declined_at := none }
    let db1 : DB :=
      { db with offers := db.offers ++ [offer], nextOfferId := db.nextOfferId + 1 }
    if sendOk entry.patient_id then
      let db2 := logMsg db1 (some offer.id) MsgKind.initialOffer
      let db3 := touchPatient db2 entry.patient_id now
      let res := createOffers cid batch now hold_expires sendOk rest db3
      (res.1, res.2 + 1)
    else
      let db2 := setOfferState db1 offer.id OfferState.FAILED
      createOffers cid batch now hold_expires sendOk rest db2

/-- The eligible batch send_next_batch computes for an open cancellation. -/
def eligibleForBatch (cfg : Config) (db : DB) (cancellation : CancellationEvent) : List WaitlistEntry :=
  get_eligible_patients_for_cancellation db cancellation.id cancellation.provider_id
    cfg.batch_size ((offersFor db cancellation.id).map (fun o => o.patient_id))

/-- send_next_batch from app/core/orchestrator.py. -/
def send_next_batch (cfg : Config) (db : DB) (cancellation_id : Nat) (now : Int)
    (sendOk : Nat → Bool) : DB × Nat :=
  match findCancellation db cancellation_id with
  | none => (db, 0)
  | some cancellation =>
    if cancellation.status ≠ CancellationStatus.OPEN then (db, 0)
    else
      let existing_offers := offersFor db cancellation_id
      let current_batch := maxBatchNumber existing_offers + 1
      let eligible_entries := eligibleForBatch cfg db cancellation
      if eligible_entries.isEmpty then
        (mark_cancellation_expired db cancellation_id, 0)
      else
        let hold_expires_at := now + cfg.hold_minutes * 60
        createOffers cancellation_id current_batch now hold_expires_at sendOk
          eligible_entries db

/-- process_new_cancellation from app/core/orchestrator.py. -/
def process_new_cancellation (cfg : Config) (db : DB) (cancellation_id : Nat)
    (now : Int) (sendOk : Nat → Bool) : DB × Nat :=
  match findCancellation db cancellation_id with
  | none => (db, 0)
  | some cancellation =>
    if cancellation.status ≠ CancellationStatus.OPEN then (db, 0)
    else send_next_batch cfg db cancellation_id now sendOk

/-- The orchestrator's _cancel_other_offers: every other PENDING offer of the
cancellation is moved to CANCELED, and a sibling-cancellation notice is sent
(logged only when the send does not raise). -/
def cancel_other_offers (db : DB) (cid : Nat) (winning_offer_id : Nat)
    (sendOk : Nat → Bool) : DB :=
  let other_offers := db.offers.filter
    (fun o => decide (o.cancellation_id = cid ∧ o.id ≠ winning_offer_id ∧
      o.state = OfferState.PENDING))
  let db1 : DB := { db with offers := db.offers.map (fun o =>
      if o.cancellation_id = cid ∧ o.id ≠ winning_offer_id ∧
          o.state = OfferState.PENDING then { o with state := OfferState.CANCELED } else o) }
  let notices : List MessageLog := (other_offers.filter (fun o => sendOk o.patient_id)).map
    (fun o => { offer_id := some o.id, kind := MsgKind.cancelNotice })
  { db1 with logs := db1.logs ++ notices }

/-- Outcome of handle_patient_acceptance: which return branch fired (message
wording lives in app/core/templates.py and is out of the model). -/
inductive AcceptReply
  | patientNotFound
  | noActiveOffer
  | offerExpired
  | tooLate
  | winner
  | slotMissing
deriving DecidableEq, Repr

/-- The winning-path update of the cancellation row: status FILLED with fill
timestamp and winning patient. -/
def fillSlot (c : CancellationEvent) (now : Int) (pid : Nat) : CancellationEvent :=
  { c with
    status := CancellationStatus.FILLED
    filled_at := some now
    filled_by_patient_id := some pid }

/-- handle_patient_acceptance from app/core/orchestrator.py. -/
def handle_patient_acceptance (cfg : Config) (db : DB) (from_phone : String)
    (now : Int) (sendOk : Nat → Bool) : DB × Bool × AcceptReply :=
  match findPatientByPhone db from_phone with
  | none => (db, false, AcceptReply.patientNotFound)
  | some patient =>
    match latestPendingOffer db patient.id with
    | none => (db, false, AcceptReply.noActiveOffer)
    | some offer =>
      if now > offer.hold_expires_at then
        (setOfferState db offer.id OfferState.EXPIRED, false, AcceptReply.offerExpired)
      else
        match findCancellation db offer.cancellation_id with
        | none => (db, false, AcceptReply.slotMissing)
        | some cancellation =>
          if cancellation.status ≠ CancellationStatus.OPEN then
            let db1 := setOfferState db offer.id OfferState.CANCELED
            let db2 := logMsg db1 (some offer.id) MsgKind.tooLate
            (db2, false, AcceptReply.tooLate)
          else
            let db1 := updateOffer db offer.id
              (fun o => { o with state := OfferState.ACCEPTED, accepted_at := some now })
            let db2 : DB := { db1 with cancellations := db1.cancellations.map (fun c =>
                if c.id = cancellation.id then fillSlot c now patient.id else c) }
            let db3 := logMsg db2 (some offer.id) MsgKind.winnerConfirm
            let db4 := cancel_other_offers db3 cancellation.id offer.id sendOk
            (db4, true, AcceptReply.winner)

/-- States counted as resolved by the early-advance checks of
handle_patient_decline and check_expired_holds (note: CANCELED and FAILED are
not in the Python list). -/
def isResolvedState : OfferState → Bool
  | OfferState.ACCEPTED => true
  | OfferState.DECLINED => true
  | OfferState.EXPIRED => true
  | _ => false

/-- The decline handler's offer update: state DECLINED with timestamp. -/
def markDeclined (db : DB) (oid : Nat) (now : Int) : DB :=
  updateOffer db oid
    (fun o => { o with state := OfferState.DECLINED, declined_at := some now })

/-- handle_patient_decline from app/core/orchestrator.py.  The Bool result is
the success flag; the acknowledgment text is a constant template. -/
def handle_patient_decline (cfg : Config) (db : DB) (from_phone : String)
    (now : Int) (sendOk : Nat → Bool) : DB × Bool :=
  match findPatientByPhone db from_phone with
  | none => (db, false)
  | some patient =>
    match latestPendingOffer db patient.id with
    | none => (db, true)
    | some offer =>
      let cancellation_id := offer.cancellation_id
      let db1 := markDeclined db offer.id now
      let db2 :=
        match findCancellation db1 cancellation_id with
        | some cancellation =>
          if cancellation.status = CancellationStatus.OPEN then
            let current_batch := maxBatchNumber (offersFor db1 cancellation_id)
            let current_batch_offers := (offersFor db1 cancellation_id).filter
              (fun o => o.batch_number == current_batch)
            if current_batch_offers.all (fun o => isResolvedState o.state) then
              (send_next_batch cfg db1 cancellation_id now sendOk).1
            else db1
          else db1
        | none => db1
      (db2, true)

/-- The per-slot part of check_expired_holds: for each touched cancellation,
if it is still OPEN and its current batch is fully resolved, send the next
batch and count it when offers went out. -/
def sweepSlots (cfg : Config) (now : Int) (sendOk : Nat → Bool) :
    List Nat → DB → Nat → DB × Nat
  | [], db, batches_sent => (db, batches_sent)
  | cid :: rest, db, batches_sent =>
    match findCancellation db cid with
    | some cancellation =>
      if cancellation.status = CancellationStatus.OPEN then
        let current_batch := maxBatchNumber (offersFor db cid)
        let current_batch_offers := (offersFor db cid).filter
          (fun o => o.batch_number == current_batch)
        if current_batch_offers.all (fun o => isResolvedState o.state) then
          let res := send_next_batch cfg db cid now sendOk
          sweepSlots cfg now sendOk rest res.1
            (if res.2 > 0 then batches_sent + 1 else batches_sent)
        else sweepSlots cfg now sendOk rest db batches_sent
      else sweepSlots cfg now sendOk rest db batches_sent
    | none => sweepSlots cfg now sendOk rest db batches_sent

/-- The sweeper's first phase: every PENDING offer whose hold has passed is
marked EXPIRED (the state check_expired_holds hands to the per-slot sweep). -/
def expireOverdue (db : DB) (now : Int) : DB :=
  { db with offers := db.offers.map (fun o =>
      if o.state = OfferState.PENDING ∧ o.hold_expires_at ≤ now then
        { o with state := OfferState.EXPIRED } else o) }

/-- check_expired_holds from app/core/orchestrator.py: mark every overdue
PENDING offer EXPIRED, then visit each distinct touched cancellation. -/
def check_expired_holds (cfg : Config) (db : DB) (now : Int)
    (sendOk : Nat → Bool) : DB × Nat :=
  let expired_offers := db.offers.filter
    (fun o => decide (o.state = OfferState.PENDING ∧ o.hold_expires_at ≤ now))
  if expired_offers.isEmpty then (db, 0)
  else
    let db1 : DB := { db with offers := db.offers.map (fun o =>
        if o.state = OfferState.PENDING ∧ o.hold_expires_at ≤ now then
          { o with state := OfferState.EXPIRED } else o) }
    let cancellation_ids := (expired_offers.map (fun o => o.cancellation_id)).dedup
    sweepSlots cfg now sendOk cancellation_ids db1 0

/-- Number of ACCEPTED offers a cancellation has. -/
def countAccepted (offers : List Offer) (cid : Nat) : Nat :=
  offers.countP
    (fun o => decide (o.cancellation_id = cid ∧ o.state = OfferState.ACCEPTED))

/-- Value of the offer row createOffers inserts for one candidate: PENDING
when the send succeeded and FAILED when it raised. -/
def mkOffer (cid batch : Nat) (now hold : Int) (oid : Nat) (e : WaitlistEntry)
    (ok : Bool) : Offer :=
  { id := oid
    cancellation_id := cid
    patient_id := e.patient_id
    batch_number := batch
    offer_sent_at := now
    hold_expires_at := hold
    state := if ok then OfferState.PENDING else OfferState.FAILED
    accepted_at := none
    declined_at := none }

/-- The offer rows a whole createOffers loop inserts, with consecutive ids
starting at oid. -/
def mkBatch (cid batch : Nat) (now hold : Int) (sendOk : Nat → Bool) :
    List WaitlistEntry → Nat → List Offer
  | [], _ => []
  | e :: rest, oid =>
    mkOffer cid batch now hold oid e (sendOk e.patient_id) ::
      mkBatch cid batch now hold sendOk rest (oid + 1)

/-- The outbound message_log rows a createOffers loop inserts: one
initial-offer log per successfully sent offer. -/
def mkLogs (sendOk : Nat → Bool) : List WaitlistEntry → Nat → List MessageLog
  | [], _ => []
  | e :: rest, oid =>
    (if sendOk e.patient_id then
      [{ offer_id := some oid, kind := MsgKind.initialOffer }] else []) ++
      mkLogs sendOk rest (oid + 1)

/-- State reached after createOffers handles one candidate whose send
succeeded: the new PENDING offer, its log row, the contact stamp, and the
advanced id allocator. -/
def dbSucc (cid batch : Nat) (now hold : Int) (e : WaitlistEntry) (db : DB) : DB :=
  { db with
    patients := db.patients.map (fun p =>
      if p.id = e.patient_id then { p with last_contacted_at := some now } else p)
    offers := db.offers ++ [mkOffer cid batch now hold db.nextOfferId e true]
    logs := db.logs ++ [{ offer_id := some db.nextOfferId, kind := MsgKind.initialOffer }]
    nextOfferId := db.nextOfferId + 1 }

/-- State reached after createOffers handles one candidate whose send raised:
the new offer is created and then marked FAILED by primary key. -/
def dbFailRaw (cid batch : Nat) (now hold : Int) (e : WaitlistEntry) (db : DB) : DB :=
  { db with
    offers := (db.offers ++ [mkOffer cid batch now hold db.nextOfferId e true]).map
      (fun o => if o.id = db.nextOfferId then { o with state := OfferState.FAILED } else o)
    nextOfferId := db.nextOfferId + 1 }

/-- The empty database. -/
def initDB : DB :=
  { patients := []
    providers := []
    waitlist := []
    cancellations := []
    offers := []
    logs := []
    nextOfferId := 0 }

/-- One atomic operation of the system against the shared database: the
admin-facing inserts (with the guards the API layer enforces: fresh ids,
unique phone, at most one active waitlist entry per patient, new slots OPEN),
the orchestrator entry points (batch dispatch, acceptance, decline, the
sweeper), the webhook opt-out, the staff void of an OPEN slot, waitlist
deactivation and the periodic score recomputation. -/
inductive Step : DB → DB → Prop
  | addPatient (db : DB) (p : PatientContact)
      (hid : ∀ q ∈ db.patients, q.id ≠ p.id)
      (hphone : ∀ q ∈ db.patients, q.phone_e164 ≠ p.phone_e164) :
      Step db { db with patients := db.patients ++ [p] }
  | addProvider (db : DB) (pr : ProviderReference)
      (hid : ∀ q ∈ db.providers, q.id ≠ pr.id) :
      Step db { db with providers := db.providers ++ [pr] }
  | addWaitlistEntry (db : DB) (w : WaitlistEntry)
      (hactive : ∀ e ∈ db.waitlist, e.patient_id = w.patient_id → e.active = false) :
      Step db { db with waitlist := db.waitlist ++ [{ w with active := true }] }
  | createCancellation (db : DB) (c : CancellationEvent)
      (hid : ∀ d ∈ db.cancellations, d.id ≠ c.id)
      (hopen : c.status = CancellationStatus.OPEN)
      (hoffers : ∀ o ∈ db.offers, o.cancellation_id ≠ c.id) :
      Step db { db with cancellations := db.cancellations ++ [c] }
  | dispatch (db : DB) (cfg : Config) (cid : Nat) (now : Int) (sendOk : Nat → Bool) :
      Step db (send_next_batch cfg db cid now sendOk).1
  | processNew (db : DB) (cfg : Config) (cid : Nat) (now : Int) (sendOk : Nat → Bool) :
      Step db (process_new_cancellation cfg db cid now sendOk).1
  | accept (db : DB) (cfg : Config) (phone : String) (now : Int) (sendOk : Nat → Bool) :
      Step db (handle_patient_acceptance cfg db phone now sendOk).1
  | decline (db : DB) (cfg : Config) (phone : String) (now : Int) (sendOk : Nat → Bool) :
      Step db (handle_patient_decline cfg db phone now sendOk).1
  | sweep (db : DB) (cfg : Config) (now : Int) (sendOk : Nat → Bool) :
      Step db (check_expired_holds cfg db now sendOk).1
  | optOut (db : DB) (pid : Nat) :
      Step db { db with patients := db.patients.map (fun p =>
        if p.id = pid then { p with opt_out := true } else p) }
  | voidSlot (db : DB) (cid : Nat)
      (hopen : ∀ c ∈ db.cancellations, c.id = cid → c.status = CancellationStatus.OPEN) :
      Step db { db with
        cancellations := db.cancellations.map (fun c =>
          if c.id = cid then { c with status := CancellationStatus.ABORTED } else c)
        offers := db.offers.map (fun o =>
          if o.cancellation_id = cid ∧ o.state = OfferState.PENDING then
            { o with state := OfferState.EXPIRED } else o) }
  | deactivateEntry (db : DB) (wid : Nat) :
      Step db { db with waitlist := db.waitlist.map (fun w =>
        if w.id = wid then { w with active := false } else w) }
  | recalcScores (db : DB) (now : Int) :
      Step db { db with waitlist := db.waitlist.map (fun w =>
        if w.active then { w with priority_score := some (calculate_priority_score w now) }
        else w) }

/-- Database states reachable from the empty database by system operations. -/
inductive Reachable : DB → Prop
  | init : Reachable initDB
  | step (db db2 : DB) : Reachable db → Step db db2 → Reachable db2

/-- The inductive invariant: primary keys of cancellations and offers are
unique and below the allocator, at most one offer exists per
(cancellation, patient) pair, at most one waitlist entry per patient is
active, and every cancellation has ACCEPTED-offer count 0 or 1 with count 1
exactly on FILLED slots. -/
def Inv (db : DB) : Prop :=
  db.cancellations.Pairwise (fun a b => a.id ≠ b.id) ∧
  db.offers.Pairwise (fun a b => a.id ≠ b.id) ∧
  (∀ o ∈ db.offers, o.id < db.nextOfferId) ∧
  db.offers.Pairwise
    (fun a b => ¬(a.cancellation_id = b.cancellation_id ∧ a.patient_id = b.patient_id)) ∧
  db.waitlist.Pairwise
    (fun a b => a.active = true → b.active = true → a.patient_id ≠ b.patient_id) ∧
  (∀ c ∈ db.cancellations, countAccepted db.offers c.id ≤ 1 ∧
    (countAccepted db.offers c.id = 1 ↔ c.status = CancellationStatus.FILLED))

/-- Default runtime settings: batches of 3, 7-minute holds. -/
def cfgW : Config := { batch_size := 3, hold_minutes := 7 }

/-- Notification channel that always delivers. -/
def okAll : Nat → Bool := fun _ => true

/-- Notification channel that fails for patient 2 only. -/
def okNot2 : Nat → Bool := fun pid => !(pid == 2)

/-- Sample patient A. -/
def pA : PatientContact :=
  { id := 1, phone_e164 := "+15550000001", opt_out := false, last_contacted_at := none }

/-- Sample patient B. -/
def pB : PatientContact :=
  { id := 2, phone_e164 := "+15550000002", opt_out := false, last_contacted_at := none }

/-- Sample patient C. -/
def pC : PatientContact :=
  { id := 3, phone_e164 := "+15550000003", opt_out := false, last_contacted_at := none }

/-- Sample waitlist entry of patient A. -/
def wA : WaitlistEntry :=
  { id := 1, patient_id := 1, provider_preference := none,
    provider_type_preference := none, current_appt_at := none, urgent_flag := false,
    manual_boost := 0, active := true, joined_at := 0, priority_score := some 30 }

/-- Sample waitlist entry of patient B. -/
def wB : WaitlistEntry := { wA with id := 2, patient_id := 2, priority_score := some 20 }

/-- Sample waitlist entry of patient C. -/
def wC : WaitlistEntry := { wA with id := 3, patient_id := 3, priority_score := some 10 }

/-- Sample open cancellation slot. -/
def slotA : CancellationEvent :=
  { id := 1, provider_id := none, status := CancellationStatus.OPEN,
    filled_at := none, filled_by_patient_id := none }

/-- State after registering patient A. -/
def dbW1 : DB := { initDB with patients := [pA] }

/-- State after adding patient A to the waitlist. -/
def dbW2 : DB := { dbW1 with waitlist := [wA] }

/-- State after a staff member logs the cancellation. -/
def dbW3 : DB := { dbW2 with cancellations := [slotA] }

/-- State after dispatching batch 1 at time 0. -/
def dbW4 : DB := (send_next_batch cfgW dbW3 1 0 okAll).1

/-- State after patient A accepts at time 60 (inside the hold window). -/
def dbW5 : DB := (handle_patient_acceptance cfgW dbW4 "+15550000001" 60 okAll).1

/-- Three eligible candidates and an open slot, for the partial-failure
scenario. -/
def dbP3 : DB :=
  { initDB with
    patients := [pA, pB, pC]
    waitlist := [wA, wB, wC]
    cancellations := [slotA] }

/-- Open slot whose batch 1 went to patients A (still PENDING) and B (send
FAILED); patient C is still eligible. -/
def dbC3 : DB :=
  { initDB with
    patients := [pA, pB, pC]
    waitlist := [wA, wB, wC]
    cancellations := [slotA]
    offers := [{ id := 1, cancellation_id := 1, patient_id := 1, batch_number := 1,
                 offer_sent_at := 0, hold_expires_at := 420,
                 state := OfferState.PENDING, accepted_at := none, declined_at := none },
               { id := 2, cancellation_id := 1, patient_id := 2, batch_number := 1,
                 offer_sent_at := 0, hold_expires_at := 420,
                 state := OfferState.FAILED, accepted_at := none, declined_at := none }]
    nextOfferId := 3 }

/-- Open slot whose batch 1 is a single PENDING offer to patient A; patient C
is still eligible. -/
def dbD : DB :=
  { initDB with
    patients := [pA, pC]
    waitlist := [wA, wC]
    cancellations := [slotA]
    offers := [{ id := 1, cancellation_id := 1, patient_id := 1, batch_number := 1,
                 offer_sent_at := 0, hold_expires_at := 420,
                 state := OfferState.PENDING, accepted_at := none, declined_at := none }]
    nextOfferId := 2 }

/-- Open slot with nobody on the waitlist: the exhaustion scenario. -/
def dbNoW : DB := { dbW3 with waitlist := [] }

/-- The single batch-1 offer of dbD. -/
def oD : Offer :=
  { id := 1, cancellation_id := 1, patient_id := 1, batch_number := 1,
    offer_sent_at := 0, hold_expires_at := 420, state := OfferState.PENDING,
    accepted_at := none, declined_at := none }

/-- A database whose only cancellation is already FILLED. -/
def dbFilled : DB :=
  { initDB with
    cancellations := [{ id := 1, provider_id := none,
                        status := CancellationStatus.FILLED, filled_at := some 60,
                        filled_by_patient_id := some 1 }] }

/-- The FILLED cancellation row of dbFilled. -/
def cFilled : CancellationEvent :=
  { id := 1, provider_id := none, status := CancellationStatus.FILLED,
    filled_at := some 60, filled_by_patient_id := some 1 }

/-- Patient A as stored after the batch-1 send stamped last_contacted_at. -/
def pA0 : PatientContact := { pA with last_contacted_at := some 0 }

/-- The offer created in dbW4: id 0, batch 1, sent at 0, hold until 420. -/
def oW4 : Offer :=
  { id := 0, cancellation_id := 1, patient_id := 1, batch_number := 1,
    offer_sent_at := 0, hold_expires_at := 420, state := OfferState.PENDING,
    accepted_at := none, declined_at := none }

/-- Concrete waitlist entry matching the score-determinism test vector:
urgent, boost 10, target appointment 186 days out, joined 61 days ago
(relative to time 0). -/
def entry62 : WaitlistEntry :=
  { id := 9, patient_id := 9, provider_preference := none,
    provider_type_preference := none, current_appt_at := some (186 * 86400),
    urgent_flag := true, manual_boost := 10, active := true,
    joined_at := -(61 * 86400), priority_score := none }

/- ------------------------------------------------------------------ -/
/- Generic list lemmas.                                               -/
/- ------------------------------------------------------------------ -/

theorem countP_map_congr {α : Type} (l : List α) (f : α → α) (p : α → Bool)
    (h : ∀ a ∈ l, p (f a) = p a) : (l.map f).countP p = l.countP p := by
  induction l with
  | nil => rfl
  | cons x xs ih =>
    simp only [List.map_cons, List.countP_cons]
    rw [h x (List.mem_cons_self x xs), ih (fun a ha => h a (List.mem_cons_of_mem x ha))]

theorem map_id_of_mem {α : Type} (l : List α) (f : α → α)
    (h : ∀ a ∈ l, f a = a) : l.map f = l := by
  induction l with
  | nil => rfl
  | cons x xs ih =>
    simp only [List.map_cons]
    rw [h x (List.mem_cons_self x xs), ih (fun a ha => h a (List.mem_cons_of_mem x ha))]

theorem filter_map_comm {α : Type} (l : List α) (f : α → α) (p : α → Bool)
    (h : ∀ a, p (f a) = p a) : (l.map f).filter p = (l.filter p).map f := by
  induction l with
  | nil => rfl
  | cons x xs ih =>
    simp only [List.map_cons, List.filter_cons, h x]
    cases hpx : p x <;> simp [ih]

theorem uniqueByKey {α β : Type} (key : α → β) {l : List α}
    (h : l.Pairwise (fun a b => key a ≠ key b)) {a b : α}
    (ha : a ∈ l) (hb : b ∈ l) (hk : key a = key b) : a = b := by
  by_contra hne
  have hsym : Symmetric (fun a b : α => key a ≠ key b) := fun x y hxy e => hxy e.symm
  exact (h.forall hsym ha hb hne) hk

theorem countP_map_update {l : List Offer} {g : Offer → Offer} {p : Offer → Bool}
    {x : Offer} (hx : x ∈ l) (hdist : l.Pairwise (fun a b => a.id ≠ b.id)) :
    (l.map (fun o => if o.id = x.id then g o else o)).countP p + (if p x then 1 else 0)
      = l.countP p + (if p (g x) then 1 else 0) := by
  induction l with
  | nil => cases hx
  | cons y ys ih =>
    rw [List.pairwise_cons] at hdist
    rcases List.mem_cons.mp hx with rfl | hmem
    · simp only [List.map_cons, List.countP_cons, if_pos rfl]
      have hrest : (ys.map (fun o => if o.id = x.id then g o else o)).countP p
          = ys.countP p := by
        apply countP_map_congr
        intro a ha
        rw [if_neg (fun e => (hdist.1 a ha) e.symm)]
      rw [hrest]
      cases hpx : p x <;> cases hpg : p (g x) <;> simp [hpx, hpg] <;> omega
    · have hy : ¬(y.id = x.id) := fun e => (hdist.1 x hmem) e
      simp only [List.map_cons, List.countP_cons, if_neg hy]
      have hih := ih hmem hdist.2
      cases hpy : p y <;> cases hpx : p x <;> cases hpg : p (g x) <;>
        simp [hpx, hpg, hpy] at hih ⊢ <;> omega

theorem maxBatchNumber_map (l : List Offer) (f : Offer → Offer)
    (h : ∀ o, (f o).batch_number = o.batch_number) :
    maxBatchNumber (l.map f) = maxBatchNumber l := by
  induction l with
  | nil => rfl
  | cons x xs ih =>
    simp only [maxBatchNumber, List.foldr_cons, List.map_cons] at ih ⊢
    rw [h x, ih]

/- ------------------------------------------------------------------ -/
/- Lookup helpers.                                                    -/
/- ------------------------------------------------------------------ -/

theorem findCancellation_eq {db : DB} {cid : Nat} {c : CancellationEvent}
    (h : findCancellation db cid = some c) : c ∈ db.cancellations ∧ c.id = cid := by
  unfold findCancellation at h
  refine ⟨List.mem_of_find?_eq_some h, ?_⟩
  have := List.find?_some h
  simpa using this

theorem latestPendingOffer_mem {db : DB} {pid : Nat} {o : Offer}
    (h : latestPendingOffer db pid = some o) :
    o ∈ db.offers ∧ o.patient_id = pid ∧ o.state = OfferState.PENDING := by
  unfold latestPendingOffer at h
  cases hs : List.insertionSort sentDescRel
      (db.offers.filter
        (fun o => decide (o.patient_id = pid ∧ o.state = OfferState.PENDING))) with
  | nil => rw [hs] at h; cases h
  | cons a as =>
    rw [hs] at h
    simp only [List.head?_cons, Option.some.injEq] at h
    subst h
    have hmem : a ∈ List.insertionSort sentDescRel
        (db.offers.filter
          (fun o => decide (o.patient_id = pid ∧ o.state = OfferState.PENDING))) := by
      rw [hs]; exact List.mem_cons_self a as
    have hmem2 := (List.mem_insertionSort sentDescRel).mp hmem
    have hfil := List.mem_filter.mp hmem2
    exact ⟨hfil.1, (of_decide_eq_true hfil.2).1, (of_decide_eq_true hfil.2).2⟩

/- ------------------------------------------------------------------ -/
/- C4: inbound message parsing.                                       -/
/- ------------------------------------------------------------------ -/

/-- C4: the claim is false of the code and the code contradicts its own
docstring.  parse_patient_response tests Python substring membership rather
than whole-word equality, so the single-letter keyword N of the decline list
captures CANCEL, UNSUBSCRIBE and END (which the claim assigns to the opt-out
action) and even the docstring example "Random text" (which the claim and the
docstring map to UNRECOGNIZED/None); STOP, QUIT and REMOVE still reach the
opt-out branch. -/
theorem parse_patient_response_substring_bug :
    parse_patient_response "CANCEL" = some "NO" ∧
    parse_patient_response "UNSUBSCRIBE" = some "NO" ∧
    parse_patient_response "END" = some "NO" ∧
    parse_patient_response "Random text" = some "NO" ∧
    parse_patient_response "STOP" = some "STOP" ∧
    parse_patient_response "QUIT" = some "STOP" ∧
    parse_patient_response "REMOVE" = some "STOP" ∧
    parse_patient_response " yes! " = some "YES" := by
  decide

/- ------------------------------------------------------------------ -/
/- C7: priority score.                                                -/
/- ------------------------------------------------------------------ -/

theorem calculate_priority_score_closed_form (entry : WaitlistEntry) (now : Int) :
    calculate_priority_score entry now =
      (if entry.urgent_flag then 30 else 0) + entry.manual_boost +
      (match entry.current_appt_at with
       | some appt =>
         if timedeltaDays appt now ≥ 180 then (20 : Int)
         else if timedeltaDays appt now ≥ 90 then 10
         else if timedeltaDays appt now ≥ 30 then 5
         else 0
       | none => 0) +
      min (Int.fdiv (timedeltaDays now entry.joined_at) 30) 10 := by
  unfold calculate_priority_score
  cases h : entry.current_appt_at with
  | none => simp [h]
  | some appt =>
    simp only [h]
    split_ifs <;> ring

/-- C7: the priority score is a pure function of the entry and the clock,
equal for every entry and clock to the stated closed form (urgency 30,
manual boost, 20/10/5/0 by appointment distance, seniority min(days//30,10));
and on any entry matching the test vector (urgent, boost 10, target
appointment 186 days after now, joined 61 days before now) it evaluates
to 62. -/
theorem calculate_priority_score_spec :
    (∀ (entry : WaitlistEntry) (now : Int),
      calculate_priority_score entry now =
        (if entry.urgent_flag then 30 else 0) + entry.manual_boost +
        (match entry.current_appt_at with
         | some appt =>
           if timedeltaDays appt now ≥ 180 then (20 : Int)
           else if timedeltaDays appt now ≥ 90 then 10
           else if timedeltaDays appt now ≥ 30 then 5
           else 0
         | none => 0) +
        min (Int.fdiv (timedeltaDays now entry.joined_at) 30) 10) ∧
    (∀ (entry : WaitlistEntry) (now : Int),
      entry.urgent_flag = true → entry.manual_boost = 10 →
      entry.current_appt_at = some (now + 186 * 86400) →
      entry.joined_at = now - 61 * 86400 →
      calculate_priority_score entry now = 62) := by
  refine ⟨fun entry now => calculate_priority_score_closed_form entry now, ?_⟩
  intro entry now h1 h2 h3 h4
  have e1 : timedeltaDays (now + 186 * 86400) now = 186 := by
    unfold timedeltaDays
    have e : now + 186 * 86400 - now = 186 * 86400 := by ring
    rw [e]; decide
  have e2 : timedeltaDays now (now - 61 * 86400) = 61 := by
    unfold timedeltaDays
    have e : now - (now - 61 * 86400) = 61 * 86400 := by ring
    rw [e]; decide
  have e3 : min (Int.fdiv 61 30) 10 = 2 := by decide
  rw [calculate_priority_score_closed_form, h1, h2, h3, h4]
  simp only [e1, e2, e3]
  norm_num

/-- Witness for C7 at a concrete entry and clock value 0: both the closed
form and the 62-point test vector. -/
theorem calculate_priority_score_spec_witness :
    calculate_priority_score entry62 0 =
      (if entry62.urgent_flag then 30 else 0) + entry62.manual_boost +
      (match entry62.current_appt_at with
       | some appt =>
         if timedeltaDays appt 0 ≥ 180 then (20 : Int)
         else if timedeltaDays appt 0 ≥ 90 then 10
         else if timedeltaDays appt 0 ≥ 30 then 5
         else 0
       | none => 0) +
      min (Int.fdiv (timedeltaDays 0 entry62.joined_at) 30) 10 ∧
    calculate_priority_score entry62 0 = 62 :=
  ⟨calculate_priority_score_spec.1 entry62 0,
   calculate_priority_score_spec.2 entry62 0 rfl rfl (by decide) (by decide)⟩

/- ------------------------------------------------------------------ -/
/- C9: dispatch on a missing or non-OPEN slot.                        -/
/- ------------------------------------------------------------------ -/

/-- C9: when the cancellation does not exist, or exists but is not OPEN,
both dispatch entry points return 0 and leave the database exactly as it
was (no offer, no message, no state change). -/
theorem dispatch_noop_when_not_open (cfg : Config) (db : DB) (cid : Nat)
    (now : Int) (sendOk : Nat → Bool)
    (h : findCancellation db cid = none ∨
      ∃ c, findCancellation db cid = some c ∧ c.status ≠ CancellationStatus.OPEN) :
    send_next_batch cfg db cid now sendOk = (db, 0) ∧
    process_new_cancellation cfg db cid now sendOk = (db, 0) := by
  rcases h with h | ⟨c, hc, hst⟩
  · unfold send_next_batch process_new_cancellation
    rw [h]
    exact ⟨rfl, rfl⟩
  · unfold send_next_batch process_new_cancellation
    rw [hc]
    simp [hst]

/-- Witness for C9: dispatching the already-FILLED slot of dbFilled. -/
theorem dispatch_noop_when_not_open_witness :
    send_next_batch cfgW dbFilled 1 0 okAll = (dbFilled, 0) ∧
    process_new_cancellation cfgW dbFilled 1 0 okAll = (dbFilled, 0) :=
  dispatch_noop_when_not_open cfgW dbFilled 1 0 okAll
    (Or.inr ⟨cFilled, by decide, by decide⟩)

/- ------------------------------------------------------------------ -/
/- C2 and C10: the expired-acceptance path.                           -/
/- ------------------------------------------------------------------ -/

theorem acceptance_expired_eq {cfg : Config} {db : DB} {from_phone : String}
    {now : Int} {sendOk : Nat → Bool} {patient : PatientContact} {offer : Offer}
    (hp : findPatientByPhone db from_phone = some patient)
    (ho : latestPendingOffer db patient.id = some offer)
    (hexp : now > offer.hold_expires_at) :
    handle_patient_acceptance cfg db from_phone now sendOk
      = (setOfferState db offer.id OfferState.EXPIRED, false,
         AcceptReply.offerExpired) := by
  unfold handle_patient_acceptance
  simp only [hp, ho, if_pos hexp]

/-- C2: an acceptance arriving strictly after the located pending offer's
hold_expires_at always reports the expired outcome and moves exactly that
offer to EXPIRED — no hypothesis about the slot's status or about other
offers is needed, so this holds even when the slot is still OPEN and nothing
was accepted; conversely, a successful acceptance implies the located offer's
hold had not yet expired, so an expired offer is never accepted. -/
theorem expired_acceptance_precedence :
    (∀ (cfg : Config) (db : DB) (from_phone : String) (now : Int)
        (sendOk : Nat → Bool) (patient : PatientContact) (offer : Offer),
      findPatientByPhone db from_phone = some patient →
      latestPendingOffer db patient.id = some offer →
      now > offer.hold_expires_at →
      (handle_patient_acceptance cfg db from_phone now sendOk).2
          = (false, AcceptReply.offerExpired) ∧
      ∃ o ∈ (handle_patient_acceptance cfg db from_phone now sendOk).1.offers,
        o.id = offer.id ∧ o.state = OfferState.EXPIRED) ∧
    (∀ (cfg : Config) (db : DB) (from_phone : String) (now : Int)
        (sendOk : Nat → Bool),
      (handle_patient_acceptance cfg db from_phone now sendOk).2.1 = true →
      ∃ patient offer, findPatientByPhone db from_phone = some patient ∧
        latestPendingOffer db patient.id = some offer ∧
        now ≤ offer.hold_expires_at) := by
  constructor
  · intro cfg db from_phone now sendOk patient offer hp ho hexp
    rw [acceptance_expired_eq hp ho hexp]
    refine ⟨rfl, ?_⟩
    have hoffer := (latestPendingOffer_mem ho).1
    refine ⟨{ offer with state := OfferState.EXPIRED }, ?_, rfl, rfl⟩
    unfold setOfferState updateOffer
    simp only []
    have := List.mem_map_of_mem
      (fun o => if o.id = offer.id then { o with state := OfferState.EXPIRED } else o)
      hoffer
    simpa using this
  · intro cfg db from_phone now sendOk h
    unfold handle_patient_acceptance at h
    split at h
    · simp at h
    · rename_i patient hp
      split at h
      · simp at h
      · rename_i offer ho
        split at h
        · simp at h
        · rename_i hexp
          exact ⟨patient, offer, hp, ho, not_lt.mp hexp⟩

/-- Witness for C2: in dbW4 the offer's hold expires at 420; an acceptance at
1000 reports expired, while the successful acceptance at 60 witnesses the
converse direction. -/
theorem expired_acceptance_precedence_witness :
    ((handle_patient_acceptance cfgW dbW4 "+15550000001" 1000 okAll).2
        = (false, AcceptReply.offerExpired) ∧
      ∃ o ∈ (handle_patient_acceptance cfgW dbW4 "+15550000001" 1000 okAll).1.offers,
        o.id = oW4.id ∧ o.state = OfferState.EXPIRED) ∧
    (∃ patient offer, findPatientByPhone dbW4 "+15550000001" = some patient ∧
      latestPendingOffer dbW4 patient.id = some offer ∧
      (60 : Int) ≤ offer.hold_expires_at) :=
  ⟨expired_acceptance_precedence.1 cfgW dbW4 "+15550000001" 1000 okAll pA0 oW4
      (by decide) (by decide) (by decide),
   expired_acceptance_precedence.2 cfgW dbW4 "+15550000001" 60 okAll (by decide)⟩

/-- C10: on the expired-acceptance path the only state change is the located
offer's PENDING to EXPIRED transition: the cancellations (status and fill
fields), patients, waitlist, providers, message log and id allocator are all
untouched, and every offer other than the located one is carried over
unchanged. -/
theorem expired_acceptance_frame (cfg : Config) (db : DB) (from_phone : String)
    (now : Int) (sendOk : Nat → Bool) (patient : PatientContact) (offer : Offer)
    (hp : findPatientByPhone db from_phone = some patient)
    (ho : latestPendingOffer db patient.id = some offer)
    (hexp : now > offer.hold_expires_at) :
    (handle_patient_acceptance cfg db from_phone now sendOk).1.cancellations
        = db.cancellations ∧
    (handle_patient_acceptance cfg db from_phone now sendOk).1.patients
        = db.patients ∧
    (handle_patient_acceptance cfg db from_phone now sendOk).1.waitlist
        = db.waitlist ∧
    (handle_patient_acceptance cfg db from_phone now sendOk).1.providers
        = db.providers ∧
    (handle_patient_acceptance cfg db from_phone now sendOk).1.logs = db.logs ∧
    (handle_patient_acceptance cfg db from_phone now sendOk).1.nextOfferId
        = db.nextOfferId ∧
    offer.state = OfferState.PENDING ∧
    (handle_patient_acceptance cfg db from_phone now sendOk).1.offers
        = db.offers.map (fun o =>
            if o.id = offer.id then { o with state := OfferState.EXPIRED } else o) ∧
    (∀ o ∈ db.offers, o.id ≠ offer.id →
      o ∈ (handle_patient_acceptance cfg db from_phone now sendOk).1.offers) := by
  rw [acceptance_expired_eq hp ho hexp]
  refine ⟨rfl, rfl, rfl, rfl, rfl, rfl, (latestPendingOffer_mem ho).2.2, rfl, ?_⟩
  intro o hmem hne
  unfold setOfferState updateOffer
  simp only []
  have := List.mem_map_of_mem
    (fun o => if o.id = offer.id then { o with state := OfferState.EXPIRED } else o)
    hmem
  simp only [if_neg hne] at this
  exact this

/-- Witness for C10 at the concrete expired acceptance on dbW4. -/
theorem expired_acceptance_frame_witness :
    (handle_patient_acceptance cfgW dbW4 "+15550000001" 1000 okAll).1.cancellations
        = dbW4.cancellations ∧
    (handle_patient_acceptance cfgW dbW4 "+15550000001" 1000 okAll).1.logs
        = dbW4.logs := by
  have h := expired_acceptance_frame cfgW dbW4 "+15550000001" 1000 okAll pA0 oW4
    (by decide) (by decide) (by decide)
  exact ⟨h.1, h.2.2.2.2.1⟩

/- ------------------------------------------------------------------ -/
/- Characterization of the createOffers loop.                         -/
/- ------------------------------------------------------------------ -/

theorem createOffers_spec (cid batch : Nat) (now hold : Int) (sendOk : Nat → Bool) :
    ∀ (entries : List WaitlistEntry) (db : DB),
      (∀ o ∈ db.offers, o.id < db.nextOfferId) →
      (createOffers cid batch now hold sendOk entries db).1.offers
          = db.offers ++ mkBatch cid batch now hold sendOk entries db.nextOfferId ∧
      (createOffers cid batch now hold sendOk entries db).1.cancellations
          = db.cancellations ∧
      (createOffers cid batch now hold sendOk entries db).1.waitlist = db.waitlist ∧
      (createOffers cid batch now hold sendOk entries db).1.providers = db.providers ∧
      (createOffers cid batch now hold sendOk entries db).1.nextOfferId
          = db.nextOfferId + entries.length ∧
      (createOffers cid batch now hold sendOk entries db).1.logs
          = db.logs ++ mkLogs sendOk entries db.nextOfferId ∧
      (createOffers cid batch now hold sendOk entries db).2
          = entries.countP (fun e => sendOk e.patient_id) := by
  intro entries
  induction entries with
  | nil =>
    intro db hb
    simp [createOffers, mkBatch, mkLogs]
  | cons e rest ih =>
    intro db hb
    cases hse : sendOk e.patient_id with
    | true =>
      have hstep : createOffers cid batch now hold sendOk (e :: rest) db
          = ((createOffers cid batch now hold sendOk rest
                (dbSucc cid batch now hold e db)).1,
             (createOffers cid batch now hold sendOk rest
                (dbSucc cid batch now hold e db)).2 + 1) := by
        simp [createOffers, hse, logMsg, touchPatient, dbSucc, mkOffer]
      have hb3 : ∀ o ∈ (dbSucc cid batch now hold e db).offers,
          o.id < (dbSucc cid batch now hold e db).nextOfferId := by
        intro o ho
        rcases List.mem_append.mp ho with h1 | h1
        · exact Nat.lt_succ_of_lt (hb o h1)
        · rcases List.mem_singleton.mp h1 with rfl
          exact Nat.lt_succ_self _
      obtain ⟨s1, s2, s3, s4, s5, s6, s7⟩ := ih (dbSucc cid batch now hold e db) hb3
      rw [hstep]
      refine ⟨?_, ?_, ?_, ?_, ?_, ?_, ?_⟩
      · rw [s1]
        simp [dbSucc, mkBatch, hse, List.append_assoc]
      · exact s2
      · exact s3
      · exact s4
      · rw [s5]
        simp [dbSucc, List.length_cons]
        omega
      · rw [s6]
        simp [dbSucc, mkLogs, hse, List.append_assoc]
      · rw [s7]
        simp [List.countP_cons, hse]
    | false =>
      have hstep : createOffers cid batch now hold sendOk (e :: rest) db
          = createOffers cid batch now hold sendOk rest
              (dbFailRaw cid batch now hold e db) := by
        simp [createOffers, hse, setOfferState, updateOffer, dbFailRaw, mkOffer]
      have hfail : dbFailRaw cid batch now hold e db
          = { db with
              offers := db.offers ++ [mkOffer cid batch now hold db.nextOfferId e false]
              nextOfferId := db.nextOfferId + 1 } := by
        unfold dbFailRaw
        congr 1
        rw [List.map_append]
        congr 1
        · apply map_id_of_mem
          intro o ho
          rw [if_neg (Nat.ne_of_lt (hb o ho))]
        · simp [mkOffer]
      rw [hfail] at hstep
      have hb3 : ∀ o ∈ db.offers ++ [mkOffer cid batch now hold db.nextOfferId e false],
          o.id < db.nextOfferId + 1 := by
        intro o ho
        rcases List.mem_append.mp ho with h1 | h1
        · exact Nat.lt_succ_of_lt (hb o h1)
        · rcases List.mem_singleton.mp h1 with rfl
          exact Nat.lt_succ_self _
      obtain ⟨s1, s2, s3, s4, s5, s6, s7⟩ := ih
        { db with
          offers := db.offers ++ [mkOffer cid batch now hold db.nextOfferId e false]
          nextOfferId := db.nextOfferId + 1 } hb3
      rw [hstep]
      refine ⟨?_, ?_, ?_, ?_, ?_, ?_, ?_⟩
      · rw [s1]
        simp [mkBatch, hse, List.append_assoc]
      · exact s2
      · exact s3
      · exact s4
      · rw [s5]
        simp [List.length_cons]
        omega
      · rw [s6]
        simp [mkLogs, hse]
      · rw [s7]
        simp [List.countP_cons, hse]

theorem mkBatch_facts (cid batch : Nat) (now hold : Int) (sendOk : Nat → Bool) :
    ∀ (entries : List WaitlistEntry) (oid : Nat) (o : Offer),
      o ∈ mkBatch cid batch now hold sendOk entries oid →
      o.cancellation_id = cid ∧ o.batch_number = batch ∧
      o.state ≠ OfferState.ACCEPTED ∧ oid ≤ o.id ∧ o.id < oid + entries.length ∧
      o.patient_id ∈ entries.map (fun e => e.patient_id) := by
  intro entries
  induction entries with
  | nil => intro oid o h; cases h
  | cons e rest ih =>
    intro oid o h
    rcases List.mem_cons.mp h with rfl | hmem
    · refine ⟨rfl, rfl, ?_, Nat.le_refl _, ?_, ?_⟩
      · unfold mkOffer
        cases sendOk e.patient_id <;> simp
      · simp [mkOffer, List.length_cons]
      · simp [mkOffer]
    · obtain ⟨h1, h2, h3, h4, h5, h6⟩ := ih (oid + 1) o hmem
      refine ⟨h1, h2, h3, by omega, ?_, ?_⟩
      · simp only [List.length_cons]
        omega
      · simp only [List.map_cons]
        exact List.mem_cons_of_mem _ h6

theorem mkBatch_cover (cid batch : Nat) (now hold : Int) (sendOk : Nat → Bool) :
    ∀ (entries : List WaitlistEntry) (oid : Nat) (e : WaitlistEntry), e ∈ entries →
      ∃ o ∈ mkBatch cid batch now hold sendOk entries oid,
        o.patient_id = e.patient_id ∧ o.cancellation_id = cid ∧
        o.batch_number = batch ∧
        o.state = (if sendOk e.patient_id then OfferState.PENDING
          else OfferState.FAILED) ∧
        (sendOk e.patient_id = true →
          ({ offer_id := some o.id, kind := MsgKind.initialOffer } : MessageLog)
            ∈ mkLogs sendOk entries oid) := by
  intro entries
  induction entries with
  | nil => intro oid e h; cases h
  | cons e2 rest ih =>
    intro oid e h
    rcases List.mem_cons.mp h with rfl | hmem
    · refine ⟨mkOffer cid batch now hold oid e (sendOk e.patient_id),
        List.mem_cons_self _ _, rfl, rfl, rfl, rfl, ?_⟩
      intro hok
      simp only [mkLogs, hok, if_true, mkOffer]
      exact List.mem_append_left _ (List.mem_singleton.mpr rfl)
    · obtain ⟨o, hmo, h1, h2, h3, h4, h5⟩ := ih (oid + 1) e hmem
      refine ⟨o, List.mem_cons_of_mem _ hmo, h1, h2, h3, h4, ?_⟩
      intro hok
      simp only [mkLogs]
      exact List.mem_append_right _ (h5 hok)

/- ------------------------------------------------------------------ -/
/- C6: exhaustion and batch numbering.                                -/
/- ------------------------------------------------------------------ -/

/-- C6: dispatching an OPEN slot with no eligible candidates returns 0 and
moves the slot from OPEN to EXPIRED; when candidates do exist, every newly
created offer carries batch number max(existing batch numbers) + 1, which is
1 when the slot had no offers. -/
theorem exhaustion_and_batch_numbering (cfg : Config) (db : DB) (cid : Nat)
    (now : Int) (sendOk : Nat → Bool) (c : CancellationEvent)
    (hfind : findCancellation db cid = some c)
    (hopen : c.status = CancellationStatus.OPEN)
    (hb : ∀ o ∈ db.offers, o.id < db.nextOfferId) :
    (eligibleForBatch cfg db c = [] →
      (send_next_batch cfg db cid now sendOk).2 = 0 ∧
      ∃ c2 ∈ (send_next_batch cfg db cid now sendOk).1.cancellations,
        c2.id = cid ∧ c2.status = CancellationStatus.EXPIRED) ∧
    (∀ o ∈ (send_next_batch cfg db cid now sendOk).1.offers, o ∉ db.offers →
      o.batch_number = maxBatchNumber (offersFor db cid) + 1) ∧
    (offersFor db cid = [] →
      ∀ o ∈ (send_next_batch cfg db cid now sendOk).1.offers, o ∉ db.offers →
        o.batch_number = 1) := by
  have hc := findCancellation_eq hfind
  have hnot : ¬(c.status ≠ CancellationStatus.OPEN) := by simp [hopen]
  have hbatch : ∀ o ∈ (send_next_batch cfg db cid now sendOk).1.offers,
      o ∉ db.offers → o.batch_number = maxBatchNumber (offersFor db cid) + 1 := by
    intro o ho hnew
    unfold send_next_batch at ho
    rw [hfind] at ho
    simp only [hnot, if_false] at ho
    by_cases hemp : (eligibleForBatch cfg db c).isEmpty
    · rw [if_pos hemp] at ho
      unfold mark_cancellation_expired at ho
      rw [hfind] at ho
      exact absurd ho hnew
    · rw [if_neg hemp] at ho
      have hspec := (createOffers_spec cid (maxBatchNumber (offersFor db cid) + 1)
        now (now + cfg.hold_minutes * 60) sendOk (eligibleForBatch cfg db c) db hb).1
      rw [hspec] at ho
      rcases List.mem_append.mp ho with h1 | h1
      · exact absurd h1 hnew
      · exact (mkBatch_facts _ _ _ _ _ _ _ _ h1).2.1
  refine ⟨?_, hbatch, ?_⟩
  · intro hemp
    unfold send_next_batch
    rw [hfind]
    simp only [hnot, if_false, hemp, List.isEmpty_nil, if_true]
    refine ⟨by trivial, ?_⟩
    unfold mark_cancellation_expired
    rw [hfind]
    refine ⟨{ c with status := CancellationStatus.EXPIRED }, ?_, hc.2, rfl⟩
    have := List.mem_map_of_mem (fun d =>
      if d.id = cid then { d with status := CancellationStatus.EXPIRED } else d) hc.1
    simpa [hc.2] using this
  · intro hempty o ho hnew
    have := hbatch o ho hnew
    rw [hempty] at this
    simpa [maxBatchNumber] using this

/-- Witness for C6: with an empty waitlist the open slot of dbNoW expires and
dispatch returns 0; with candidates present on the offer-free slot of dbW3
the created offers carry batch number 1. -/
theorem exhaustion_and_batch_numbering_witness :
    ((send_next_batch cfgW dbNoW 1 0 okAll).2 = 0 ∧
      ∃ c2 ∈ (send_next_batch cfgW dbNoW 1 0 okAll).1.cancellations,
        c2.id = 1 ∧ c2.status = CancellationStatus.EXPIRED) ∧
    (∀ o ∈ (send_next_batch cfgW dbW3 1 0 okAll).1.offers, o ∉ dbW3.offers →
      o.batch_number = 1) := by
  constructor
  · exact (exhaustion_and_batch_numbering cfgW dbNoW 1 0 okAll slotA (by decide)
      (by decide) (by decide)).1 (by decide)
  · exact (exhaustion_and_batch_numbering cfgW dbW3 1 0 okAll slotA (by decide)
      (by decide) (by decide)).2.2 (by decide)

/- ------------------------------------------------------------------ -/
/- C5: partial batch failure.                                         -/
/- ------------------------------------------------------------------ -/

/-- C5: when dispatching an OPEN slot with a non-empty candidate list, the
dispatch is never aborted by send failures: the return value is exactly the
number of candidates whose send succeeded, all pre-existing offers survive,
and every selected candidate gets an offer row on this slot — PENDING with a
logged initial-offer message if their send succeeded, FAILED if it raised. -/
theorem partial_batch_failure (cfg : Config) (db : DB) (cid : Nat) (now : Int)
    (sendOk : Nat → Bool) (c : CancellationEvent)
    (hfind : findCancellation db cid = some c)
    (hopen : c.status = CancellationStatus.OPEN)
    (hne : eligibleForBatch cfg db c ≠ [])
    (hb : ∀ o ∈ db.offers, o.id < db.nextOfferId) :
    (send_next_batch cfg db cid now sendOk).2
        = (eligibleForBatch cfg db c).countP (fun e => sendOk e.patient_id) ∧
    (∀ o ∈ db.offers, o ∈ (send_next_batch cfg db cid now sendOk).1.offers) ∧
    (∀ e ∈ eligibleForBatch cfg db c,
      ∃ o ∈ (send_next_batch cfg db cid now sendOk).1.offers,
        o.patient_id = e.patient_id ∧ o.cancellation_id = cid ∧
        (sendOk e.patient_id = true → o.state = OfferState.PENDING ∧
          ({ offer_id := some o.id, kind := MsgKind.initialOffer } : MessageLog)
            ∈ (send_next_batch cfg db cid now sendOk).1.logs) ∧
        (sendOk e.patient_id = false → o.state = OfferState.FAILED)) := by
  have hnot : ¬(c.status ≠ CancellationStatus.OPEN) := by simp [hopen]
  have hemp : (eligibleForBatch cfg db c).isEmpty = false := by
    cases h2 : (eligibleForBatch cfg db c).isEmpty
    · rfl
    · exact absurd (List.isEmpty_iff.mp h2) hne
  have hsnb : send_next_batch cfg db cid now sendOk
      = createOffers cid (maxBatchNumber (offersFor db cid) + 1) now
          (now + cfg.hold_minutes * 60) sendOk (eligibleForBatch cfg db c) db := by
    unfold send_next_batch
    rw [hfind]
    simp only [hnot, if_false, hemp, Bool.false_eq_true]
  obtain ⟨s1, s2, s3, s4, s5, s6, s7⟩ := createOffers_spec cid
    (maxBatchNumber (offersFor db cid) + 1) now (now + cfg.hold_minutes * 60)
    sendOk (eligibleForBatch cfg db c) db hb
  refine ⟨?_, ?_, ?_⟩
  · rw [hsnb]
    exact s7
  · intro o ho
    rw [hsnb, s1]
    exact List.mem_append_left _ ho
  · intro e he
    obtain ⟨o, hmo, h1, h2, h3, h4, h5⟩ := mkBatch_cover cid
      (maxBatchNumber (offersFor db cid) + 1) now (now + cfg.hold_minutes * 60)
      sendOk (eligibleForBatch cfg db c) db.nextOfferId e he
    refine ⟨o, ?_, h1, h2, ?_, ?_⟩
    · rw [hsnb, s1]
      exact List.mem_append_right _ hmo
    · intro hok
      refine ⟨by rw [h4, if_pos hok], ?_⟩
      rw [hsnb, s6]
      exact List.mem_append_right _ (h5 hok)
    · intro hko
      rw [h4, hko]
      simp

/-- Witness for C5: dispatching dbP3 over a channel that fails for patient 2
returns 2 and leaves patient 2's offer FAILED. -/
theorem partial_batch_failure_witness :
    (send_next_batch cfgW dbP3 1 0 okNot2).2
        = (eligibleForBatch cfgW dbP3 slotA).countP (fun e => okNot2 e.patient_id) ∧
    ∃ o ∈ (send_next_batch cfgW dbP3 1 0 okNot2).1.offers,
      o.patient_id = wB.patient_id ∧ o.cancellation_id = 1 ∧
      (okNot2 wB.patient_id = true → o.state = OfferState.PENDING ∧
        ({ offer_id := some o.id, kind := MsgKind.initialOffer } : MessageLog)
          ∈ (send_next_batch cfgW dbP3 1 0 okNot2).1.logs) ∧
      (okNot2 wB.patient_id = false → o.state = OfferState.FAILED) := by
  have h := partial_batch_failure cfgW dbP3 1 0 okNot2 slotA (by decide) (by decide)
    (by decide) (by decide)
  exact ⟨h.1, h.2.2 wB (by decide)⟩

/- ------------------------------------------------------------------ -/
/- C3: early advance after a decline or a sweep.                      -/
/- ------------------------------------------------------------------ -/

/-- C3 counterexample: in dbC3 batch 1 holds one PENDING offer (patient A)
and one FAILED offer (patient B).  After patient A declines, the slot is
still OPEN, every batch-1 offer is DECLINED or FAILED — all terminal states
in the claim's list — and patient C is still an eligible candidate, yet no
batch-2 offer is dispatched: the code's all-resolved check does not count
FAILED (or CANCELED) as resolved. -/
theorem decline_failed_batch_counterexample :
    (∃ c ∈ (handle_patient_decline cfgW dbC3 "+15550000001" 100 okAll).1.cancellations,
      c.id = 1 ∧ c.status = CancellationStatus.OPEN) ∧
    (∀ o ∈ (handle_patient_decline cfgW dbC3 "+15550000001" 100 okAll).1.offers,
      o.state = OfferState.DECLINED ∨ o.state = OfferState.FAILED) ∧
    eligibleForBatch cfgW
      (handle_patient_decline cfgW dbC3 "+15550000001" 100 okAll).1 slotA ≠ [] ∧
    (∀ o ∈ (handle_patient_decline cfgW dbC3 "+15550000001" 100 okAll).1.offers,
      o.batch_number ≠ 2) := by
  decide

/-- C3 as amended: after a decline is recorded, if the slot is still OPEN and
every offer of the current highest batch other than the declined one is in
ACCEPTED, DECLINED or EXPIRED (the code's resolved set, which excludes
CANCELED and FAILED), then the decline handler immediately hands the slot to
send_next_batch; when that dispatch finds candidates, an offer of the next
batch number exists afterwards.  Likewise for the sweeper: when
check_expired_holds expires overdue offers, each touched slot that is still
OPEN and whose current highest batch is fully in the resolved set is handed
to send_next_batch immediately (stated for the first touched slot; the sweep
then continues over the remaining slots from the dispatched state). -/
theorem decline_advances_when_batch_resolved :
    (∀ (cfg : Config) (db : DB) (from_phone : String) (now : Int)
        (sendOk : Nat → Bool) (patient : PatientContact) (offer : Offer)
        (c : CancellationEvent),
      findPatientByPhone db from_phone = some patient →
      latestPendingOffer db patient.id = some offer →
      findCancellation db offer.cancellation_id = some c →
      c.status = CancellationStatus.OPEN →
      (∀ o ∈ offersFor db offer.cancellation_id,
        o.batch_number = maxBatchNumber (offersFor db offer.cancellation_id) →
        o.id = offer.id ∨ isResolvedState o.state = true) →
      (handle_patient_decline cfg db from_phone now sendOk).1
        = (send_next_batch cfg (markDeclined db offer.id now)
            offer.cancellation_id now sendOk).1 ∧
      (eligibleForBatch cfg (markDeclined db offer.id now) c ≠ [] →
        (∀ o ∈ db.offers, o.id < db.nextOfferId) →
        ∃ o ∈ (handle_patient_decline cfg db from_phone now sendOk).1.offers,
          o.batch_number = maxBatchNumber (offersFor db offer.cancellation_id) + 1)) ∧
    (∀ (cfg : Config) (db : DB) (now : Int) (sendOk : Nat → Bool)
        (cid : Nat) (rest : List Nat) (c : CancellationEvent),
      ((db.offers.filter (fun o => decide (o.state = OfferState.PENDING ∧
          o.hold_expires_at ≤ now))).map (fun o => o.cancellation_id)).dedup
        = cid :: rest →
      findCancellation (expireOverdue db now) cid = some c →
      c.status = CancellationStatus.OPEN →
      ((offersFor (expireOverdue db now) cid).filter (fun o =>
          o.batch_number == maxBatchNumber
            (offersFor (expireOverdue db now) cid))).all
        (fun o => isResolvedState o.state) = true →
      check_expired_holds cfg db now sendOk
        = sweepSlots cfg now sendOk rest
            (send_next_batch cfg (expireOverdue db now) cid now sendOk).1
            (if (send_next_batch cfg (expireOverdue db now) cid now sendOk).2 > 0
              then 1 else 0)) := by
  refine ⟨?_, ?_⟩
  intro cfg db from_phone now sendOk patient offer c hp ho hc hopen hterm
  have hdeclF : ∀ o : Offer,
      ((fun o => if o.id = offer.id then
        { o with state := OfferState.DECLINED, declined_at := some now } else o) o).cancellation_id
        = o.cancellation_id := by
    intro o
    by_cases h2 : o.id = offer.id <;> simp [h2]
  have hofFor : offersFor (markDeclined db offer.id now) offer.cancellation_id
      = (offersFor db offer.cancellation_id).map (fun o =>
          if o.id = offer.id then
            { o with state := OfferState.DECLINED, declined_at := some now } else o) := by
    unfold offersFor markDeclined updateOffer
    apply filter_map_comm
    intro o
    rw [hdeclF o]
  have hmax : maxBatchNumber (offersFor (markDeclined db offer.id now)
      offer.cancellation_id) = maxBatchNumber (offersFor db offer.cancellation_id) := by
    rw [hofFor]
    apply maxBatchNumber_map
    intro o
    by_cases h2 : o.id = offer.id <;> simp [h2]
  have hfindMD : findCancellation (markDeclined db offer.id now) offer.cancellation_id
      = some c := hc
  have hall : ((offersFor (markDeclined db offer.id now) offer.cancellation_id).filter
      (fun o => o.batch_number == maxBatchNumber
        (offersFor (markDeclined db offer.id now) offer.cancellation_id))).all
      (fun o => isResolvedState o.state) = true := by
    rw [hmax, hofFor]
    have hfp : ∀ o : Offer,
        (((if o.id = offer.id then
          { o with state := OfferState.DECLINED, declined_at := some now }
          else o) : Offer).batch_number
          == maxBatchNumber (offersFor db offer.cancellation_id))
        = (o.batch_number == maxBatchNumber (offersFor db offer.cancellation_id)) := by
      intro o
      by_cases h2 : o.id = offer.id <;> simp [h2]
    rw [filter_map_comm _ _ _ hfp]
    rw [List.all_map, List.all_eq_true]
    intro o hmem
    have hmf := List.mem_filter.mp hmem
    have hbn : o.batch_number = maxBatchNumber (offersFor db offer.cancellation_id) := by
      simpa using hmf.2
    rcases hterm o hmf.1 hbn with h2 | h2
    · simp [Function.comp, h2, isResolvedState]
    · by_cases h3 : o.id = offer.id
      · simp [Function.comp, h3, isResolvedState]
      · simp only [Function.comp_apply]
        rw [if_neg h3]
        exact h2
  have hstep : (handle_patient_decline cfg db from_phone now sendOk).1
      = (send_next_batch cfg (markDeclined db offer.id now)
          offer.cancellation_id now sendOk).1 := by
    unfold handle_patient_decline
    simp only [hp, ho]
    rw [hfindMD]
    simp only [hopen, if_true, hall, if_true]
  refine ⟨hstep, ?_⟩
  intro hne hb
  rw [hstep]
  have hbMD : ∀ o ∈ (markDeclined db offer.id now).offers,
      o.id < (markDeclined db offer.id now).nextOfferId := by
    intro o hmem
    unfold markDeclined updateOffer at hmem ⊢
    simp only [List.mem_map] at hmem
    obtain ⟨o2, ho2, rfl⟩ := hmem
    by_cases h2 : o2.id = offer.id
    · simp only [if_pos h2]
      show o2.id < db.nextOfferId
      exact hb o2 ho2
    · simp only [if_neg h2]
      exact hb o2 ho2
  have hnot : ¬(c.status ≠ CancellationStatus.OPEN) := by simp [hopen]
  have hemp : (eligibleForBatch cfg (markDeclined db offer.id now) c).isEmpty = false := by
    cases h2 : (eligibleForBatch cfg (markDeclined db offer.id now) c).isEmpty
    · rfl
    · exact absurd (List.isEmpty_iff.mp h2) hne
  have hsnb : send_next_batch cfg (markDeclined db offer.id now)
      offer.cancellation_id now sendOk
      = createOffers offer.cancellation_id
          (maxBatchNumber (offersFor (markDeclined db offer.id now)
            offer.cancellation_id) + 1) now
          (now + cfg.hold_minutes * 60) sendOk
          (eligibleForBatch cfg (markDeclined db offer.id now) c)
          (markDeclined db offer.id now) := by
    unfold send_next_batch
    rw [hfindMD]
    simp only [hnot, if_false, hemp, Bool.false_eq_true]
  obtain ⟨e, he⟩ := List.exists_mem_of_ne_nil _ hne
  obtain ⟨o, hmo, h1, h2, h3, h4, h5⟩ := mkBatch_cover offer.cancellation_id
    (maxBatchNumber (offersFor (markDeclined db offer.id now)
      offer.cancellation_id) + 1) now (now + cfg.hold_minutes * 60) sendOk
    (eligibleForBatch cfg (markDeclined db offer.id now) c)
    (markDeclined db offer.id now).nextOfferId e he
  have hspec := (createOffers_spec offer.cancellation_id
    (maxBatchNumber (offersFor (markDeclined db offer.id now)
      offer.cancellation_id) + 1) now (now + cfg.hold_minutes * 60) sendOk
    (eligibleForBatch cfg (markDeclined db offer.id now) c)
    (markDeclined db offer.id now) hbMD).1
  refine ⟨o, ?_, ?_⟩
  · rw [hsnb, hspec]
    exact List.mem_append_right _ hmo
  · rw [h3, hmax]
  intro cfg db now sendOk cid rest c htouch hfc hopen hall
  have hne : (db.offers.filter (fun o => decide (o.state = OfferState.PENDING ∧
      o.hold_expires_at ≤ now))).isEmpty = false := by
    cases hE : (db.offers.filter (fun o => decide (o.state = OfferState.PENDING ∧
        o.hold_expires_at ≤ now))).isEmpty
    · rfl
    · rw [List.isEmpty_iff.mp hE] at htouch
      simp at htouch
  unfold check_expired_holds
  dsimp only
  rw [hne]
  simp only [Bool.false_eq_true, if_false]
  rw [htouch]
  show sweepSlots cfg now sendOk (cid :: rest) (expireOverdue db now) 0 = _
  rw [sweepSlots]
  rw [hfc]
  dsimp only
  rw [if_pos hopen, if_pos hall]

/-- Witness for the amended C3: in dbD the declined offer resolves the whole
batch and the dispatch creates a batch-2 offer for patient C; and the sweeper
run on dbD at a time past the hold expires the offer and immediately hands
the slot to send_next_batch. -/
theorem decline_advances_when_batch_resolved_witness :
    (∃ o ∈ (handle_patient_decline cfgW dbD "+15550000001" 100 okAll).1.offers,
      o.batch_number = maxBatchNumber (offersFor dbD oD.cancellation_id) + 1) ∧
    check_expired_holds cfgW dbD 1000 okAll
      = sweepSlots cfgW 1000 okAll []
          (send_next_batch cfgW (expireOverdue dbD 1000) 1 1000 okAll).1
          (if (send_next_batch cfgW (expireOverdue dbD 1000) 1 1000 okAll).2 > 0
            then 1 else 0) := by
  constructor
  · have h := decline_advances_when_batch_resolved.1 cfgW dbD "+15550000001" 100 okAll
      pA oD slotA (by decide) (by decide) (by decide) (by decide) (by decide)
    exact h.2 (by decide) (by decide)
  · exact decline_advances_when_batch_resolved.2 cfgW dbD 1000 okAll 1 [] slotA
      (by decide) (by decide) (by decide) (by decide)

/- ------------------------------------------------------------------ -/
/- Eligibility filter lemmas.                                         -/
/- ------------------------------------------------------------------ -/

theorem mem_eligibleBase {db : DB} {exclude : List Nat} {e : WaitlistEntry}
    (h : e ∈ eligibleBase db exclude) :
    e ∈ db.waitlist ∧ e.active = true ∧ e.patient_id ∉ exclude := by
  unfold eligibleBase at h
  simp only at h
  split at h
  · rename_i hisEmpty
    have hq1 := List.mem_filter.mp h
    have hact := List.mem_filter.mp hq1.1
    refine ⟨hact.1, hact.2, ?_⟩
    rw [List.isEmpty_iff.mp hisEmpty]
    exact List.not_mem_nil _
  · have hf := List.mem_filter.mp h
    have hq1 := List.mem_filter.mp hf.1
    have hact := List.mem_filter.mp hq1.1
    refine ⟨hact.1, hact.2, ?_⟩
    simpa using hf.2

theorem mem_providerFilter {db : DB} {provider_id : Option Nat}
    {l : List WaitlistEntry} {e : WaitlistEntry}
    (h : e ∈ providerFilter db provider_id l) : e ∈ l := by
  unfold providerFilter at h
  split at h
  · exact h
  · split at h
    · exact h
    · exact (List.mem_filter.mp h).1

theorem mem_eligible {db : DB} {cancellation_id : Nat} {provider_id : Option Nat}
    {limit : Nat} {exclude : List Nat} {e : WaitlistEntry}
    (h : e ∈ get_eligible_patients_for_cancellation db cancellation_id provider_id
      limit exclude) :
    e ∈ db.waitlist ∧ e.active = true ∧ e.patient_id ∉ exclude := by
  unfold get_eligible_patients_for_cancellation at h
  simp only at h
  have hsorted : e ∈ orderByPriority
      (providerFilter db provider_id (eligibleBase db exclude)) := by
    split at h
    · exact h
    · exact List.mem_of_mem_take h
  exact mem_eligibleBase (mem_providerFilter
    ((List.mem_insertionSort wlRel).mp hsorted))

theorem eligible_pairwise {db : DB} (cancellation_id : Nat) (provider_id : Option Nat)
    (limit : Nat) (exclude : List Nat)
    (hw : db.waitlist.Pairwise
      (fun a b => a.active = true → b.active = true → a.patient_id ≠ b.patient_id)) :
    (get_eligible_patients_for_cancellation db cancellation_id provider_id limit
      exclude).Pairwise (fun a b => a.patient_id ≠ b.patient_id) := by
  have hq1 : (db.waitlist.filter (fun w => w.active)).Pairwise
      (fun a b => a.patient_id ≠ b.patient_id) := by
    have hsub : (db.waitlist.filter (fun w => w.active)).Pairwise
        (fun a b => a.active = true → b.active = true →
          a.patient_id ≠ b.patient_id) :=
      hw.sublist (List.filter_sublist db.waitlist)
    refine hsub.imp_of_mem ?_
    intro a b ha hb hab
    exact hab (by simpa using (List.mem_filter.mp ha).2)
      (by simpa using (List.mem_filter.mp hb).2)
  have hstep : ∀ (l : List WaitlistEntry),
      l.Pairwise (fun a b => a.patient_id ≠ b.patient_id) →
      ∀ p : WaitlistEntry → Bool, (l.filter p).Pairwise
        (fun a b => a.patient_id ≠ b.patient_id) :=
    fun l hl p => hl.sublist (List.filter_sublist l)
  have hbase : (eligibleBase db exclude).Pairwise
      (fun a b => a.patient_id ≠ b.patient_id) := by
    unfold eligibleBase
    simp only
    split
    · exact hstep _ hq1 _
    · exact hstep _ (hstep _ hq1 _) _
  have hq4 : (providerFilter db provider_id (eligibleBase db exclude)).Pairwise
      (fun a b => a.patient_id ≠ b.patient_id) := by
    unfold providerFilter
    split
    · exact hbase
    · split
      · exact hbase
      · exact hstep _ hbase _
  have hsym : Symmetric (fun a b : WaitlistEntry => a.patient_id ≠ b.patient_id) :=
    fun x y hxy e => hxy e.symm
  have hsorted : (orderByPriority
      (providerFilter db provider_id (eligibleBase db exclude))).Pairwise
      (fun a b => a.patient_id ≠ b.patient_id) :=
    (List.Perm.pairwise_iff (fun hxy => hsym hxy)
      (List.perm_insertionSort wlRel _)).mpr hq4
  unfold get_eligible_patients_for_cancellation
  simp only
  split
  · exact hsorted
  · exact hsorted.sublist (List.take_sublist _ _)

/- ------------------------------------------------------------------ -/
/- mkBatch pairwise lemmas.                                           -/
/- ------------------------------------------------------------------ -/

theorem count_zero_of_not_filled {n : Nat} {s : CancellationStatus} (hle : n ≤ 1)
    (hiff : n = 1 ↔ s = CancellationStatus.FILLED)
    (hs : s ≠ CancellationStatus.FILLED) : n = 0 := by
  by_contra hne
  have h1 : n = 1 := by omega
  exact hs (hiff.mp h1)

theorem mkBatch_pairwise_ids (cid batch : Nat) (now hold : Int) (sendOk : Nat → Bool) :
    ∀ (entries : List WaitlistEntry) (oid : Nat),
      (mkBatch cid batch now hold sendOk entries oid).Pairwise
        (fun a b => a.id ≠ b.id) := by
  intro entries
  induction entries with
  | nil => intro oid; exact List.Pairwise.nil
  | cons e rest ih =>
    intro oid
    refine List.Pairwise.cons ?_ (ih (oid + 1))
    intro b hb
    have hfb := (mkBatch_facts cid batch now hold sendOk rest (oid + 1) b hb).2.2.2.1
    have : (mkOffer cid batch now hold oid e (sendOk e.patient_id)).id = oid := rfl
    rw [this]
    omega

theorem mkBatch_pairwise_pid (cid batch : Nat) (now hold : Int) (sendOk : Nat → Bool) :
    ∀ (entries : List WaitlistEntry) (oid : Nat),
      entries.Pairwise (fun a b => a.patient_id ≠ b.patient_id) →
      (mkBatch cid batch now hold sendOk entries oid).Pairwise
        (fun a b => a.patient_id ≠ b.patient_id) := by
  intro entries
  induction entries with
  | nil => intro oid _; exact List.Pairwise.nil
  | cons e rest ih =>
    intro oid hp
    rw [List.pairwise_cons] at hp
    refine List.Pairwise.cons ?_ (ih (oid + 1) hp.2)
    intro b hb
    have hfb := (mkBatch_facts cid batch now hold sendOk rest (oid + 1) b hb).2.2.2.2.2
    obtain ⟨e2, he2, heq⟩ := List.mem_map.mp hfb
    have : (mkOffer cid batch now hold oid e (sendOk e.patient_id)).patient_id
        = e.patient_id := rfl
    rw [this, ← heq]
    exact hp.1 e2 he2

/- ------------------------------------------------------------------ -/
/- Invariant preservation.                                            -/
/- ------------------------------------------------------------------ -/

theorem Inv_updateOffer_nonaccept (db : DB) (offer : Offer) (g : Offer → Offer)
    (h : Inv db) (hmem : offer ∈ db.offers)
    (hpend : offer.state ≠ OfferState.ACCEPTED)
    (hid : ∀ o, (g o).id = o.id)
    (hcid : ∀ o, (g o).cancellation_id = o.cancellation_id)
    (hpid : ∀ o, (g o).patient_id = o.patient_id)
    (hgst : (g offer).state ≠ OfferState.ACCEPTED) :
    Inv (updateOffer db offer.id g) := by
  obtain ⟨i1, i2, i3, i4, i5, i6⟩ := h
  have hf : ∀ o : Offer,
      ((fun o => if o.id = offer.id then g o else o) o).id = o.id := by
    intro o; by_cases h2 : o.id = offer.id <;> simp [h2, hid]
  have hfc : ∀ o : Offer,
      ((fun o => if o.id = offer.id then g o else o) o).cancellation_id
        = o.cancellation_id := by
    intro o; by_cases h2 : o.id = offer.id <;> simp [h2, hcid]
  have hfp : ∀ o : Offer,
      ((fun o => if o.id = offer.id then g o else o) o).patient_id
        = o.patient_id := by
    intro o; by_cases h2 : o.id = offer.id <;> simp [h2, hpid]
  refine ⟨i1, ?_, ?_, ?_, i5, ?_⟩
  · refine (List.pairwise_map).mpr (i2.imp ?_)
    intro a b hab
    rw [hf a, hf b]
    exact hab
  · intro o ho
    obtain ⟨o2, ho2, rfl⟩ := List.mem_map.mp ho
    rw [hf o2]
    exact i3 o2 ho2
  · refine (List.pairwise_map).mpr (i4.imp ?_)
    intro a b hab hcon
    rw [hfc a, hfc b, hfp a, hfp b] at hcon
    exact hab hcon
  · intro c hc
    have heq : countAccepted (updateOffer db offer.id g).offers c.id
        = countAccepted db.offers c.id := by
      unfold updateOffer countAccepted
      have hu := countP_map_update
        (g := g)
        (p := fun o => decide (o.cancellation_id = c.id ∧
          o.state = OfferState.ACCEPTED)) hmem i2
      have h1 : (decide (offer.cancellation_id = c.id ∧
          offer.state = OfferState.ACCEPTED)) = false := by
        simp [hpend]
      have h2 : (decide ((g offer).cancellation_id = c.id ∧
          (g offer).state = OfferState.ACCEPTED)) = false := by
        simp [hgst]
      simp only [h1, h2] at hu
      simpa using hu
    rw [heq]
    exact i6 c hc

theorem Inv_cancel_other_offers (db : DB) (cid win : Nat) (sendOk : Nat → Bool)
    (h : Inv db) : Inv (cancel_other_offers db cid win sendOk) := by
  obtain ⟨i1, i2, i3, i4, i5, i6⟩ := h
  have hf : ∀ o : Offer,
      ((fun o => if o.cancellation_id = cid ∧ o.id ≠ win ∧
          o.state = OfferState.PENDING then
        { o with state := OfferState.CANCELED } else o) o).id = o.id := by
    intro o
    by_cases h2 : o.cancellation_id = cid ∧ o.id ≠ win ∧
      o.state = OfferState.PENDING <;> simp [h2]
  have hfc : ∀ o : Offer,
      ((fun o => if o.cancellation_id = cid ∧ o.id ≠ win ∧
          o.state = OfferState.PENDING then
        { o with state := OfferState.CANCELED } else o) o).cancellation_id
        = o.cancellation_id := by
    intro o
    by_cases h2 : o.cancellation_id = cid ∧ o.id ≠ win ∧
      o.state = OfferState.PENDING <;> simp [h2]
  have hfp : ∀ o : Offer,
      ((fun o => if o.cancellation_id = cid ∧ o.id ≠ win ∧
          o.state = OfferState.PENDING then
        { o with state := OfferState.CANCELED } else o) o).patient_id
        = o.patient_id := by
    intro o
    by_cases h2 : o.cancellation_id = cid ∧ o.id ≠ win ∧
      o.state = OfferState.PENDING <;> simp [h2]
  refine ⟨i1, ?_, ?_, ?_, i5, ?_⟩
  · refine (List.pairwise_map).mpr (i2.imp ?_)
    intro a b hab
    rw [hf a, hf b]
    exact hab
  · intro o ho
    obtain ⟨o2, ho2, rfl⟩ := List.mem_map.mp ho
    rw [hf o2]
    exact i3 o2 ho2
  · refine (List.pairwise_map).mpr (i4.imp ?_)
    intro a b hab hcon
    rw [hfc a, hfc b, hfp a, hfp b] at hcon
    exact hab hcon
  · intro c hc
    have heq : countAccepted (cancel_other_offers db cid win sendOk).offers c.id
        = countAccepted db.offers c.id := by
      unfold cancel_other_offers countAccepted
      apply countP_map_congr
      intro o ho
      by_cases h2 : o.cancellation_id = cid ∧ o.id ≠ win ∧
        o.state = OfferState.PENDING
      · have hopend : o.state = OfferState.PENDING := h2.2.2
        simp [h2, hopend]
      · simp [h2]
    rw [heq]
    exact i6 c hc

theorem Inv_mark_cancellation_expired (db : DB) (cid : Nat)
    (c : CancellationEvent) (h : Inv db)
    (hfc : findCancellation db cid = some c)
    (hnf : c.status ≠ CancellationStatus.FILLED) :
    Inv (mark_cancellation_expired db cid) := by
  obtain ⟨i1, i2, i3, i4, i5, i6⟩ := h
  obtain ⟨hcmem, hcid⟩ := findCancellation_eq hfc
  unfold mark_cancellation_expired
  rw [hfc]
  have hfid : ∀ d : CancellationEvent,
      ((fun d => if d.id = cid then { d with status := CancellationStatus.EXPIRED }
        else d) d).id = d.id := by
    intro d; by_cases h2 : d.id = cid <;> simp [h2]
  refine ⟨?_, i2, i3, i4, i5, ?_⟩
  · rw [List.pairwise_map]
    refine i1.imp ?_
    intro a b hab
    rw [hfid a, hfid b]
    exact hab
  · intro c2 hc2
    obtain ⟨c1, hc1, rfl⟩ := List.mem_map.mp hc2
    by_cases h2 : c1.id = cid
    · have hc1c : c1 = c := uniqueByKey (fun d => d.id) i1 hc1 hcmem
        (by show c1.id = c.id; rw [h2, hcid])
      subst hc1c
      obtain ⟨hle, hiff⟩ := i6 c1 hc1
      have hz := count_zero_of_not_filled hle hiff hnf
      simp only [if_pos h2]
      constructor
      · show countAccepted db.offers c1.id ≤ 1
        exact hle
      · show countAccepted db.offers c1.id = 1 ↔
          CancellationStatus.EXPIRED = CancellationStatus.FILLED
        rw [hz]
        simp
    · simp only [if_neg h2]
      exact i6 c1 hc1

theorem Inv_send_next_batch (cfg : Config) (db : DB) (cid : Nat) (now : Int)
    (sendOk : Nat → Bool) (h : Inv db) :
    Inv (send_next_batch cfg db cid now sendOk).1 := by
  cases hfc : findCancellation db cid with
  | none =>
    unfold send_next_batch
    simp only [hfc]
    exact h
  | some c =>
    unfold send_next_batch
    simp only [hfc]
    by_cases hst : c.status ≠ CancellationStatus.OPEN
    · rw [if_pos hst]
      exact h
    · rw [if_neg hst]
      have hopen : c.status = CancellationStatus.OPEN := not_not.mp hst
      by_cases hemp : (eligibleForBatch cfg db c).isEmpty = true
      · rw [if_pos hemp]
        exact Inv_mark_cancellation_expired db cid c h hfc (by rw [hopen]; decide)
      · rw [if_neg hemp]
        obtain ⟨i1, i2, i3, i4, i5, i6⟩ := h
        obtain ⟨hcmem, hcid⟩ := findCancellation_eq hfc
        obtain ⟨s1, s2, s3, s4, s5, s6, s7⟩ := createOffers_spec cid
          (maxBatchNumber (offersFor db cid) + 1) now (now + cfg.hold_minutes * 60)
          sendOk (eligibleForBatch cfg db c) db i3
        have hfacts := mkBatch_facts cid (maxBatchNumber (offersFor db cid) + 1)
          now (now + cfg.hold_minutes * 60) sendOk (eligibleForBatch cfg db c)
          db.nextOfferId
        refine ⟨?_, ?_, ?_, ?_, ?_, ?_⟩
        · rw [s2]; exact i1
        · rw [s1]
          rw [List.pairwise_append]
          refine ⟨i2, mkBatch_pairwise_ids _ _ _ _ _ _ _, ?_⟩
          intro a ha b hb
          have hb1 := (hfacts b hb).2.2.2.1
          have ha1 := i3 a ha
          omega
        · rw [s1, s5]
          intro o ho
          rcases List.mem_append.mp ho with h1 | h1
          · have := i3 o h1
            omega
          · have := (hfacts o h1).2.2.2.2.1
            omega
        · rw [s1]
          rw [List.pairwise_append]
          refine ⟨i4, ?_, ?_⟩
          · have hpw := eligible_pairwise c.id c.provider_id cfg.batch_size
              ((offersFor db c.id).map (fun o => o.patient_id)) i5
            have := mkBatch_pairwise_pid cid (maxBatchNumber (offersFor db cid) + 1)
              now (now + cfg.hold_minutes * 60) sendOk (eligibleForBatch cfg db c)
              db.nextOfferId hpw
            refine this.imp ?_
            intro a b hab hcon
            exact hab hcon.2
          · intro a ha b hb hcon
            have hbcid := (hfacts b hb).1
            have hbpid := (hfacts b hb).2.2.2.2.2
            obtain ⟨e, he, hepid⟩ := List.mem_map.mp hbpid
            have hexc := (mem_eligible he).2.2
            apply hexc
            have hacid : a.cancellation_id = cid := by
              rw [hcon.1, hbcid]
            have hain : a ∈ offersFor db c.id := by
              unfold offersFor
              rw [hcid]
              exact List.mem_filter.mpr ⟨ha, by simp [hacid]⟩
            have hmm : a.patient_id ∈ (offersFor db c.id).map (fun o => o.patient_id) :=
              List.mem_map_of_mem _ hain
            have h1 : e.patient_id = b.patient_id := by simpa using hepid
            rw [h1, ← hcon.2]
            exact hmm
        · rw [s3]; exact i5
        · rw [s2]
          intro c2 hc2
          have hcnt : countAccepted (createOffers cid
              (maxBatchNumber (offersFor db cid) + 1) now
              (now + cfg.hold_minutes * 60) sendOk (eligibleForBatch cfg db c)
              db).1.offers c2.id = countAccepted db.offers c2.id := by
            unfold countAccepted
            rw [s1, List.countP_append]
            have hz : (mkBatch cid (maxBatchNumber (offersFor db cid) + 1) now
                (now + cfg.hold_minutes * 60) sendOk (eligibleForBatch cfg db c)
                db.nextOfferId).countP
                (fun o => decide (o.cancellation_id = c2.id ∧
                  o.state = OfferState.ACCEPTED)) = 0 := by
              rw [List.countP_eq_zero]
              intro b hb
              have := (hfacts b hb).2.2.1
              simp [this]
            rw [hz]
            omega
          rw [hcnt]
          exact i6 c2 hc2

theorem Inv_logMsg (db : DB) (oid : Option Nat) (k : MsgKind) (h : Inv db) :
    Inv (logMsg db oid k) := h

theorem Inv_handle_patient_acceptance (cfg : Config) (db : DB) (phone : String)
    (now : Int) (sendOk : Nat → Bool) (h : Inv db) :
    Inv (handle_patient_acceptance cfg db phone now sendOk).1 := by
  unfold handle_patient_acceptance
  cases hfp : findPatientByPhone db phone with
  | none => simp only [hfp]; exact h
  | some patient =>
    simp only [hfp]
    cases hlp : latestPendingOffer db patient.id with
    | none => exact h
    | some offer =>
      simp only [hlp]
      obtain ⟨hmem, hpidO, hpend⟩ := latestPendingOffer_mem hlp
      have hpendne : offer.state ≠ OfferState.ACCEPTED := by
        rw [hpend]; decide
      by_cases hexp : now > offer.hold_expires_at
      · rw [if_pos hexp]
        exact Inv_updateOffer_nonaccept db offer _ h hmem hpendne
          (fun o => rfl) (fun o => rfl) (fun o => rfl) (by simp)
      · rw [if_neg hexp]
        cases hfc : findCancellation db offer.cancellation_id with
        | none => simp only [hfc]; exact h
        | some cancellation =>
          simp only [hfc]
          by_cases hst : cancellation.status ≠ CancellationStatus.OPEN
          · rw [if_pos hst]
            exact Inv_logMsg _ _ _ (Inv_updateOffer_nonaccept db offer _ h hmem
              hpendne (fun o => rfl) (fun o => rfl) (fun o => rfl) (by simp))
          · rw [if_neg hst]
            have hopen : cancellation.status = CancellationStatus.OPEN := not_not.mp hst
            obtain ⟨hcmem, hcid⟩ := findCancellation_eq hfc
            obtain ⟨i1, i2, i3, i4, i5, i6⟩ := h
            apply Inv_cancel_other_offers
            apply Inv_logMsg
            have hfid : ∀ d : CancellationEvent,
                ((fun d => if d.id = cancellation.id then fillSlot d now patient.id
                  else d) d).id = d.id := by
              intro d
              by_cases h2 : d.id = cancellation.id <;> simp [h2, fillSlot]
            have haid : ∀ o : Offer,
                ((fun o => if o.id = offer.id then
                  { o with state := OfferState.ACCEPTED, accepted_at := some now }
                  else o) o).id = o.id := by
              intro o; by_cases h2 : o.id = offer.id <;> simp [h2]
            have hacid : ∀ o : Offer,
                ((fun o => if o.id = offer.id then
                  { o with state := OfferState.ACCEPTED, accepted_at := some now }
                  else o) o).cancellation_id = o.cancellation_id := by
              intro o; by_cases h2 : o.id = offer.id <;> simp [h2]
            have hapid : ∀ o : Offer,
                ((fun o => if o.id = offer.id then
                  { o with state := OfferState.ACCEPTED, accepted_at := some now }
                  else o) o).patient_id = o.patient_id := by
              intro o; by_cases h2 : o.id = offer.id <;> simp [h2]
            have hcnt : ∀ q : Nat,
                (db.offers.map (fun o => if o.id = offer.id then
                  { o with state := OfferState.ACCEPTED, accepted_at := some now }
                  else o)).countP
                  (fun o => decide (o.cancellation_id = q ∧
                    o.state = OfferState.ACCEPTED))
                = db.offers.countP
                    (fun o => decide (o.cancellation_id = q ∧
                      o.state = OfferState.ACCEPTED))
                  + (if offer.cancellation_id = q then 1 else 0) := by
              intro q
              have hu := countP_map_update
                (g := fun o => { o with state := OfferState.ACCEPTED, accepted_at := some now })
                (p := fun o => decide (o.cancellation_id = q ∧
                  o.state = OfferState.ACCEPTED)) hmem i2
              have h1 : (decide (offer.cancellation_id = q ∧
                  offer.state = OfferState.ACCEPTED)) = false := by
                simp [hpendne]
              simp only [h1, Bool.false_eq_true, if_false, eq_self_iff_true,
                and_true] at hu
              by_cases h2 : offer.cancellation_id = q
              · have h3 : decide (offer.cancellation_id = q) = true := by simp [h2]
                simp only [h3, eq_self_iff_true, if_true] at hu
                simp only [if_pos h2]
                omega
              · have h3 : decide (offer.cancellation_id = q) = false := by simp [h2]
                simp only [h3, Bool.false_eq_true, if_false] at hu
                simp only [if_neg h2]
                omega
            refine ⟨?_, ?_, ?_, ?_, i5, ?_⟩
            · refine (List.pairwise_map).mpr (i1.imp ?_)
              intro a b hab
              rw [hfid a, hfid b]
              exact hab
            · refine (List.pairwise_map).mpr (i2.imp ?_)
              intro a b hab
              rw [haid a, haid b]
              exact hab
            · intro o ho
              obtain ⟨o2, ho2, rfl⟩ := List.mem_map.mp ho
              rw [haid o2]
              exact i3 o2 ho2
            · refine (List.pairwise_map).mpr (i4.imp ?_)
              intro a b hab hcon
              rw [hacid a, hacid b, hapid a, hapid b] at hcon
              exact hab hcon
            · intro c2 hc2
              obtain ⟨c1, hc1, rfl⟩ := List.mem_map.mp hc2
              by_cases h2 : c1.id = cancellation.id
              · have hc1c : c1 = cancellation :=
                  uniqueByKey (fun d => d.id) i1 hc1 hcmem
                    (by show c1.id = cancellation.id; rw [h2])
                subst hc1c
                obtain ⟨hle, hiff⟩ := i6 c1 hc1
                have hz : countAccepted db.offers c1.id = 0 :=
                  count_zero_of_not_filled hle hiff (by rw [hopen]; decide)
                simp only [if_pos h2]
                have hfid2 : (fillSlot c1 now patient.id).id = c1.id := rfl
                constructor
                · show countAccepted _ (fillSlot c1 now patient.id).id ≤ 1
                  rw [hfid2]
                  show (db.offers.map _).countP _ ≤ 1
                  rw [hcnt c1.id]
                  unfold countAccepted at hz
                  rw [hz]
                  rw [if_pos (show offer.cancellation_id = c1.id by omega)]
                · show countAccepted _ (fillSlot c1 now patient.id).id = 1 ↔
                    (fillSlot c1 now patient.id).status = CancellationStatus.FILLED
                  rw [hfid2]
                  have hfst : (fillSlot c1 now patient.id).status
                      = CancellationStatus.FILLED := rfl
                  rw [hfst]
                  show (db.offers.map _).countP _ = 1 ↔ _
                  rw [hcnt c1.id]
                  unfold countAccepted at hz
                  rw [hz]
                  rw [if_pos (show offer.cancellation_id = c1.id by omega)]
                  simp
              · simp only [if_neg h2]
                obtain ⟨hle, hiff⟩ := i6 c1 hc1
                constructor
                · show (db.offers.map _).countP _ ≤ 1
                  rw [hcnt c1.id]
                  rw [if_neg (show ¬offer.cancellation_id = c1.id by omega)]
                  unfold countAccepted at hle
                  omega
                · show (db.offers.map _).countP _ = 1 ↔ _
                  rw [hcnt c1.id]
                  rw [if_neg (show ¬offer.cancellation_id = c1.id by omega)]
                  unfold countAccepted at hiff
                  simpa using hiff

theorem Inv_handle_patient_decline (cfg : Config) (db : DB) (phone : String)
    (now : Int) (sendOk : Nat → Bool) (h : Inv db) :
    Inv (handle_patient_decline cfg db phone now sendOk).1 := by
  unfold handle_patient_decline
  cases hfp : findPatientByPhone db phone with
  | none => simp only [hfp]; exact h
  | some patient =>
    simp only [hfp]
    cases hlp : latestPendingOffer db patient.id with
    | none => exact h
    | some offer =>
      simp only [hlp]
      obtain ⟨hmem, hpidO, hpend⟩ := latestPendingOffer_mem hlp
      have h1 : Inv (markDeclined db offer.id now) :=
        Inv_updateOffer_nonaccept db offer _ h hmem (by rw [hpend]; decide)
          (fun o => rfl) (fun o => rfl) (fun o => rfl) (by simp)
      show Inv (match findCancellation (markDeclined db offer.id now)
          offer.cancellation_id with
        | some cancellation =>
          if cancellation.status = CancellationStatus.OPEN then
            if (((offersFor (markDeclined db offer.id now)
                offer.cancellation_id)).filter (fun o => o.batch_number ==
                  maxBatchNumber (offersFor (markDeclined db offer.id now)
                    offer.cancellation_id))).all
                (fun o => isResolvedState o.state) then
              (send_next_batch cfg (markDeclined db offer.id now)
                offer.cancellation_id now sendOk).1
            else markDeclined db offer.id now
          else markDeclined db offer.id now
        | none => markDeclined db offer.id now)
      split
      · split
        · split
          · exact Inv_send_next_batch cfg _ _ now sendOk h1
          · exact h1
        · exact h1
      · exact h1

theorem Inv_check_expired_holds (cfg : Config) (db : DB) (now : Int)
    (sendOk : Nat → Bool) (h : Inv db) :
    Inv (check_expired_holds cfg db now sendOk).1 := by
  have hsweep : ∀ (cids : List Nat) (db2 : DB) (acc : Nat), Inv db2 →
      Inv (sweepSlots cfg now sendOk cids db2 acc).1 := by
    intro cids
    induction cids with
    | nil => intro db2 acc h2; exact h2
    | cons cid rest ih =>
      intro db2 acc h2
      unfold sweepSlots
      dsimp only
      split
      · split
        · split
          · exact ih _ _ (Inv_send_next_batch cfg _ _ now sendOk h2)
          · exact ih _ _ h2
        · exact ih _ _ h2
      · exact ih _ _ h2
  unfold check_expired_holds
  dsimp only
  split
  · exact h
  · apply hsweep
    obtain ⟨i1, i2, i3, i4, i5, i6⟩ := h
    have hf : ∀ o : Offer,
        ((fun o => if o.state = OfferState.PENDING ∧ o.hold_expires_at ≤ now then
          { o with state := OfferState.EXPIRED } else o) o).id = o.id := by
      intro o
      by_cases h2 : o.state = OfferState.PENDING ∧ o.hold_expires_at ≤ now <;>
        simp [h2]
    have hfc : ∀ o : Offer,
        ((fun o => if o.state = OfferState.PENDING ∧ o.hold_expires_at ≤ now then
          { o with state := OfferState.EXPIRED } else o) o).cancellation_id
          = o.cancellation_id := by
      intro o
      by_cases h2 : o.state = OfferState.PENDING ∧ o.hold_expires_at ≤ now <;>
        simp [h2]
    have hfp : ∀ o : Offer,
        ((fun o => if o.state = OfferState.PENDING ∧ o.hold_expires_at ≤ now then
          { o with state := OfferState.EXPIRED } else o) o).patient_id
          = o.patient_id := by
      intro o
      by_cases h2 : o.state = OfferState.PENDING ∧ o.hold_expires_at ≤ now <;>
        simp [h2]
    refine ⟨i1, ?_, ?_, ?_, i5, ?_⟩
    · refine (List.pairwise_map).mpr (i2.imp ?_)
      intro a b hab
      rw [hf a, hf b]
      exact hab
    · intro o ho
      obtain ⟨o2, ho2, rfl⟩ := List.mem_map.mp ho
      rw [hf o2]
      exact i3 o2 ho2
    · refine (List.pairwise_map).mpr (i4.imp ?_)
      intro a b hab hcon
      rw [hfc a, hfc b, hfp a, hfp b] at hcon
      exact hab hcon
    · intro c hc
      have heq : ∀ q : Nat, (db.offers.map (fun o =>
          if o.state = OfferState.PENDING ∧ o.hold_expires_at ≤ now then
            { o with state := OfferState.EXPIRED } else o)).countP
          (fun o => decide (o.cancellation_id = q ∧
            o.state = OfferState.ACCEPTED))
          = db.offers.countP (fun o => decide (o.cancellation_id = q ∧
              o.state = OfferState.ACCEPTED)) := by
        intro q
        apply countP_map_congr
        intro o ho
        by_cases h2 : o.state = OfferState.PENDING ∧ o.hold_expires_at ≤ now
        · have : o.state = OfferState.PENDING := h2.1
          simp [h2, this]
        · simp [h2]
      constructor
      · show (db.offers.map _).countP _ ≤ 1
        rw [heq c.id]
        exact (i6 c hc).1
      · show (db.offers.map _).countP _ = 1 ↔ _
        rw [heq c.id]
        exact (i6 c hc).2

theorem Inv_process_new_cancellation (cfg : Config) (db : DB) (cid : Nat)
    (now : Int) (sendOk : Nat → Bool) (h : Inv db) :
    Inv (process_new_cancellation cfg db cid now sendOk).1 := by
  unfold process_new_cancellation
  split
  · exact h
  · split
    · exact h
    · exact Inv_send_next_batch cfg db cid now sendOk h

theorem Inv_step {db db2 : DB} (hs : Step db db2) (h : Inv db) : Inv db2 := by
  cases hs with
  | addPatient p hid hphone => exact h
  | addProvider pr hid => exact h
  | optOut pid => exact h
  | addWaitlistEntry w hactive =>
    obtain ⟨i1, i2, i3, i4, i5, i6⟩ := h
    refine ⟨i1, i2, i3, i4, ?_, i6⟩
    rw [List.pairwise_append]
    refine ⟨i5, List.pairwise_singleton _ _, ?_⟩
    intro a ha b hb
    rcases List.mem_singleton.mp hb with rfl
    intro hact _ heq
    exact absurd (hactive a ha heq) (by rw [hact]; decide)
  | createCancellation c hid hopen hoffers =>
    obtain ⟨i1, i2, i3, i4, i5, i6⟩ := h
    refine ⟨?_, i2, i3, i4, i5, ?_⟩
    · rw [List.pairwise_append]
      refine ⟨i1, List.pairwise_singleton _ _, ?_⟩
      intro a ha b hb
      rcases List.mem_singleton.mp hb with rfl
      exact hid a ha
    · intro c2 hc2
      rcases List.mem_append.mp hc2 with h1 | h1
      · exact i6 c2 h1
      · rcases List.mem_singleton.mp h1 with rfl
        have hz : countAccepted db.offers c2.id = 0 := by
          unfold countAccepted
          rw [List.countP_eq_zero]
          intro o ho
          simp [hoffers o ho]
        rw [hz]
        constructor
        · omega
        · rw [hopen]
          simp
  | dispatch cfg cid now sendOk => exact Inv_send_next_batch cfg db cid now sendOk h
  | processNew cfg cid now sendOk =>
    exact Inv_process_new_cancellation cfg db cid now sendOk h
  | accept cfg phone now sendOk =>
    exact Inv_handle_patient_acceptance cfg db phone now sendOk h
  | decline cfg phone now sendOk =>
    exact Inv_handle_patient_decline cfg db phone now sendOk h
  | sweep cfg now sendOk => exact Inv_check_expired_holds cfg db now sendOk h
  | voidSlot cid hopen =>
    obtain ⟨i1, i2, i3, i4, i5, i6⟩ := h
    have hf : ∀ o : Offer,
        ((fun o => if o.cancellation_id = cid ∧ o.state = OfferState.PENDING then
          { o with state := OfferState.EXPIRED } else o) o).id = o.id := by
      intro o
      by_cases h2 : o.cancellation_id = cid ∧ o.state = OfferState.PENDING <;>
        simp [h2]
    have hfc : ∀ o : Offer,
        ((fun o => if o.cancellation_id = cid ∧ o.state = OfferState.PENDING then
          { o with state := OfferState.EXPIRED } else o) o).cancellation_id
          = o.cancellation_id := by
      intro o
      by_cases h2 : o.cancellation_id = cid ∧ o.state = OfferState.PENDING <;>
        simp [h2]
    have hfp : ∀ o : Offer,
        ((fun o => if o.cancellation_id = cid ∧ o.state = OfferState.PENDING then
          { o with state := OfferState.EXPIRED } else o) o).patient_id
          = o.patient_id := by
      intro o
      by_cases h2 : o.cancellation_id = cid ∧ o.state = OfferState.PENDING <;>
        simp [h2]
    have hgid : ∀ d : CancellationEvent,
        ((fun d => if d.id = cid then { d with status := CancellationStatus.ABORTED }
          else d) d).id = d.id := by
      intro d
      by_cases h2 : d.id = cid <;> simp [h2]
    have heq : ∀ q : Nat, (db.offers.map (fun o =>
        if o.cancellation_id = cid ∧ o.state = OfferState.PENDING then
          { o with state := OfferState.EXPIRED } else o)).countP
        (fun o => decide (o.cancellation_id = q ∧
          o.state = OfferState.ACCEPTED))
        = db.offers.countP (fun o => decide (o.cancellation_id = q ∧
            o.state = OfferState.ACCEPTED)) := by
      intro q
      apply countP_map_congr
      intro o ho
      by_cases h2 : o.cancellation_id = cid ∧ o.state = OfferState.PENDING
      · have : o.state = OfferState.PENDING := h2.2
        simp [h2, this]
      · simp [h2]
    refine ⟨?_, ?_, ?_, ?_, i5, ?_⟩
    · refine (List.pairwise_map).mpr (i1.imp ?_)
      intro a b hab
      rw [hgid a, hgid b]
      exact hab
    · refine (List.pairwise_map).mpr (i2.imp ?_)
      intro a b hab
      rw [hf a, hf b]
      exact hab
    · intro o ho
      obtain ⟨o2, ho2, rfl⟩ := List.mem_map.mp ho
      rw [hf o2]
      exact i3 o2 ho2
    · refine (List.pairwise_map).mpr (i4.imp ?_)
      intro a b hab hcon
      rw [hfc a, hfc b, hfp a, hfp b] at hcon
      exact hab hcon
    · intro c2 hc2
      obtain ⟨c1, hc1, rfl⟩ := List.mem_map.mp hc2
      by_cases h2 : c1.id = cid
      · have hopen1 : c1.status = CancellationStatus.OPEN := hopen c1 hc1 h2
        obtain ⟨hle, hiff⟩ := i6 c1 hc1
        have hz : countAccepted db.offers c1.id = 0 :=
          count_zero_of_not_filled hle hiff (by rw [hopen1]; decide)
        unfold countAccepted at hz
        simp only [if_pos h2]
        constructor
        · show (db.offers.map _).countP _ ≤ 1
          rw [heq c1.id, hz]
          omega
        · show (db.offers.map _).countP _ = 1 ↔ _
          rw [heq c1.id, hz]
          simp
      · simp only [if_neg h2]
        obtain ⟨hle, hiff⟩ := i6 c1 hc1
        unfold countAccepted at hle hiff
        constructor
        · show (db.offers.map _).countP _ ≤ 1
          rw [heq c1.id]
          exact hle
        · show (db.offers.map _).countP _ = 1 ↔ _
          rw [heq c1.id]
          exact hiff
  | deactivateEntry wid =>
    obtain ⟨i1, i2, i3, i4, i5, i6⟩ := h
    refine ⟨i1, i2, i3, i4, ?_, i6⟩
    refine (List.pairwise_map).mpr (i5.imp ?_)
    intro a b hab ha hb
    by_cases h2 : a.id = wid
    · rw [if_pos h2] at ha
      simp at ha
    · by_cases h3 : b.id = wid
      · rw [if_pos h3] at hb
        simp at hb
      · rw [if_neg h2] at ha
        rw [if_neg h3] at hb
        rw [if_neg h2, if_neg h3]
        exact hab ha hb
  | recalcScores now2 =>
    obtain ⟨i1, i2, i3, i4, i5, i6⟩ := h
    refine ⟨i1, i2, i3, i4, ?_, i6⟩
    have hfa : ∀ w : WaitlistEntry, ((fun w : WaitlistEntry => if w.active then
        { w with priority_score := some (calculate_priority_score w now2) }
        else w) w).active = w.active := by
      intro w; by_cases h2 : w.active <;> simp [h2]
    have hfw : ∀ w : WaitlistEntry, ((fun w : WaitlistEntry => if w.active then
        { w with priority_score := some (calculate_priority_score w now2) }
        else w) w).patient_id = w.patient_id := by
      intro w; by_cases h2 : w.active <;> simp [h2]
    refine (List.pairwise_map).mpr (i5.imp ?_)
    intro a b hab ha hb
    rw [hfa a] at ha
    rw [hfa b] at hb
    rw [hfw a, hfw b]
    exact hab ha hb

theorem Inv_reachable {db : DB} (h : Reachable db) : Inv db := by
  induction h with
  | init =>
    refine ⟨List.Pairwise.nil, List.Pairwise.nil, ?_, List.Pairwise.nil,
      List.Pairwise.nil, ?_⟩
    · intro o ho; cases ho
    · intro c hc; cases hc
  | step db db2 hr hs ih => exact Inv_step hs ih

theorem reachable_dbW5 : Reachable dbW5 := by
  have h0 : Reachable initDB := Reachable.init
  have s1 : Step initDB dbW1 := Step.addPatient initDB pA (by decide) (by decide)
  have h1 : Reachable dbW1 := Reachable.step _ _ h0 s1
  have s2 : Step dbW1 dbW2 := Step.addWaitlistEntry dbW1 wA (by decide)
  have h2 : Reachable dbW2 := Reachable.step _ _ h1 s2
  have s3 : Step dbW2 dbW3 :=
    Step.createCancellation dbW2 slotA (by decide) (by decide) (by decide)
  have h3 : Reachable dbW3 := Reachable.step _ _ h2 s3
  have s4 : Step dbW3 dbW4 := Step.dispatch dbW3 cfgW 1 0 okAll
  have h4 : Reachable dbW4 := Reachable.step _ _ h3 s4
  have s5 : Step dbW4 dbW5 := Step.accept dbW4 cfgW "+15550000001" 60 okAll
  exact Reachable.step _ _ h4 s5

/- ------------------------------------------------------------------ -/
/- C1: exclusivity.                                                   -/
/- ------------------------------------------------------------------ -/

/-- C1: in every reachable database state, each cancellation slot has 0 or 1
ACCEPTED offers, with exactly 1 exactly when the slot is FILLED; moreover, in
any successful acceptance call, the located offer becomes ACCEPTED, its slot
becomes FILLED with the winning patient recorded (committed together in the
same call), and every other offer of that slot that was PENDING is moved to
CANCELED. -/
theorem exclusivity_invariant :
    (∀ db : DB, Reachable db → ∀ c ∈ db.cancellations,
      countAccepted db.offers c.id ≤ 1 ∧
      (countAccepted db.offers c.id = 1 ↔ c.status = CancellationStatus.FILLED)) ∧
    (∀ (cfg : Config) (db : DB) (phone : String) (now : Int) (sendOk : Nat → Bool)
        (db2 : DB) (reply : AcceptReply),
      handle_patient_acceptance cfg db phone now sendOk = (db2, true, reply) →
      ∃ patient offer cancellation,
        findPatientByPhone db phone = some patient ∧
        latestPendingOffer db patient.id = some offer ∧
        findCancellation db offer.cancellation_id = some cancellation ∧
        (∃ o2 ∈ db2.offers, o2.id = offer.id ∧ o2.state = OfferState.ACCEPTED) ∧
        (∃ c2 ∈ db2.cancellations, c2.id = cancellation.id ∧
          c2.status = CancellationStatus.FILLED ∧
          c2.filled_by_patient_id = some patient.id) ∧
        (∀ o ∈ db.offers, o.cancellation_id = offer.cancellation_id →
          o.id ≠ offer.id → o.state = OfferState.PENDING →
          ∃ o2 ∈ db2.offers, o2.id = o.id ∧ o2.state = OfferState.CANCELED)) := by
  constructor
  · intro db hr c hc
    exact (Inv_reachable hr).2.2.2.2.2 c hc
  · intro cfg db phone now sendOk db2 reply h
    unfold handle_patient_acceptance at h
    cases hfp : findPatientByPhone db phone with
    | none => simp only [hfp] at h; simp at h
    | some patient =>
      simp only [hfp] at h
      cases hlp : latestPendingOffer db patient.id with
      | none => simp only [hlp] at h; simp at h
      | some offer =>
        simp only [hlp] at h
        by_cases hexp : now > offer.hold_expires_at
        · rw [if_pos hexp] at h; simp at h
        · rw [if_neg hexp] at h
          cases hfc : findCancellation db offer.cancellation_id with
          | none => simp only [hfc] at h; simp at h
          | some cancellation =>
            simp only [hfc] at h
            by_cases hst : cancellation.status ≠ CancellationStatus.OPEN
            · rw [if_pos hst] at h; simp at h
            · rw [if_neg hst] at h
              obtain ⟨hmem, hpidO, hpend⟩ := latestPendingOffer_mem hlp
              obtain ⟨hcmem, hcidE⟩ := findCancellation_eq hfc
              have hdb2 := congrArg (fun t : DB × Bool × AcceptReply => t.1) h
              dsimp only at hdb2
              subst hdb2
              refine ⟨patient, offer, cancellation, rfl, hlp, hfc, ?_, ?_, ?_⟩
              · refine ⟨{ offer with state := OfferState.ACCEPTED, accepted_at := some now }, ?_, rfl, rfl⟩
                show _ ∈ ((db.offers.map (fun o => if o.id = offer.id then { o with state := OfferState.ACCEPTED, accepted_at := some now } else o)).map (fun o => if o.cancellation_id = cancellation.id ∧ o.id ≠ offer.id ∧ o.state = OfferState.PENDING then { o with state := OfferState.CANCELED } else o))
                have hm1 : ({ offer with state := OfferState.ACCEPTED, accepted_at := some now } : Offer) ∈ db.offers.map (fun o => if o.id = offer.id then { o with state := OfferState.ACCEPTED, accepted_at := some now } else o) := by
                  refine List.mem_map.mpr ⟨offer, hmem, ?_⟩
                  rw [if_pos rfl]
                refine List.mem_map.mpr ⟨_, hm1, ?_⟩
                rw [if_neg (by simp)]
              · refine ⟨fillSlot cancellation now patient.id, ?_, rfl, rfl, rfl⟩
                show _ ∈ db.cancellations.map (fun c => if c.id = cancellation.id then fillSlot c now patient.id else c)
                refine List.mem_map.mpr ⟨cancellation, hcmem, ?_⟩
                rw [if_pos rfl]
              · intro o hmo hcido hido hpendo
                refine ⟨{ o with state := OfferState.CANCELED }, ?_, rfl, rfl⟩
                show _ ∈ ((db.offers.map (fun o => if o.id = offer.id then { o with state := OfferState.ACCEPTED, accepted_at := some now } else o)).map (fun o => if o.cancellation_id = cancellation.id ∧ o.id ≠ offer.id ∧ o.state = OfferState.PENDING then { o with state := OfferState.CANCELED } else o))
                have hm1 : o ∈ db.offers.map (fun o => if o.id = offer.id then { o with state := OfferState.ACCEPTED, accepted_at := some now } else o) := by
                  refine List.mem_map.mpr ⟨o, hmo, ?_⟩
                  rw [if_neg hido]
                refine List.mem_map.mpr ⟨o, hm1, ?_⟩
                rw [if_pos ⟨by rw [hcido, ← hcidE], hido, hpendo⟩]

/-- Witness for C1 at the concrete reachable state dbW5, whose only slot is
FILLED by the accepted offer, together with the concrete successful
acceptance that produced it. -/
theorem exclusivity_invariant_witness :
    (countAccepted dbW5.offers 1 ≤ 1 ∧
      (countAccepted dbW5.offers 1 = 1 ↔
        cFilled.status = CancellationStatus.FILLED)) ∧
    (∃ patient offer cancellation,
      findPatientByPhone dbW4 "+15550000001" = some patient ∧
      latestPendingOffer dbW4 patient.id = some offer ∧
      findCancellation dbW4 offer.cancellation_id = some cancellation ∧
      (∃ o2 ∈ dbW5.offers, o2.id = offer.id ∧ o2.state = OfferState.ACCEPTED) ∧
      (∃ c2 ∈ dbW5.cancellations, c2.id = cancellation.id ∧
        c2.status = CancellationStatus.FILLED ∧
        c2.filled_by_patient_id = some patient.id) ∧
      (∀ o ∈ dbW4.offers, o.cancellation_id = offer.cancellation_id →
        o.id ≠ offer.id → o.state = OfferState.PENDING →
        ∃ o2 ∈ dbW5.offers, o2.id = o.id ∧ o2.state = OfferState.CANCELED)) := by
  constructor
  · exact exclusivity_invariant.1 dbW5 reachable_dbW5 cFilled (by decide)
  · exact exclusivity_invariant.2 cfgW dbW4 "+15550000001" 60 okAll dbW5
      AcceptReply.winner (by decide)

/- ------------------------------------------------------------------ -/
/- C8: no double offer.                                               -/
/- ------------------------------------------------------------------ -/

end Clinic
